import Mathlib

/-!
# Cricket-simulation: the innings loops of `cricket_commentary.c` and `cricket.c`

A shallow embedding of the two ball-by-ball innings simulations
(`cricket_commentary.c` in namespace `Cricket`, `cricket.c` in `Cricket.Match`).

* `int` fields (`runs`, `balls`, `totalRuns`, `wickets`) are mathematical
  integers: signed overflow is undefined in C++ and an innings adds at most
  `6` per delivery over at most `300` deliveries.
* `rand()` is a stream `rand : Nat → Nat`; the state carries the number of
  calls made so far (`drawn`), so the next call returns `rand drawn`.
* `team.players[i]` with `i` out of range is undefined behaviour; the
  embedding returns `none` there.
* Console output (`printCommentary`) does not influence the state and is left
  out.
-/

namespace Cricket

/-- Record `struct Player` of `cricket_commentary.c`. -/
structure Player where
  name : String
  runs : Int
  balls : Int
  out : Bool
  deriving DecidableEq, Repr

/-- Record `struct Team` of `cricket_commentary.c`. -/
structure Team where
  name : String
  players : List Player
  totalRuns : Int
  wickets : Int
  deriving DecidableEq, Repr

/-- Function `simulateBall`: `d` is the value returned by `rand()`.
Returns the `int` result together with the updated player. -/
def simulateBall (d : Nat) (player : Player) : Int × Player :=
  let outcome : Int := ((d % 7 : Nat) : Int)
  if outcome = 0 then
    (-1, { player with out := true })
  else
    (outcome, { player with runs := player.runs + outcome, balls := player.balls + 1 })

/-- The variables `simulateOver` works on: the team, the two index variables
held by reference, and the number of `rand()` calls made so far. -/
structure Crease where
  team : Team
  strikerIdx : Nat
  nonStrikerIdx : Nat
  drawn : Nat
  deriving DecidableEq, Repr

/-- The "find next player" loop of `simulateOver`, `for (i = ...; i < size; i++)`,
running over the remaining players `ps` with `i` the index of the head of `ps`.
Returns the new value of `strikerIdx` (unchanged when the loop ends without
`break`). -/
def findNextFrom (strikerIdx nonStrikerIdx : Nat) : List Player → Nat → Nat
  | [], _ => strikerIdx
  | p :: ps, i =>
    if !p.out && i != strikerIdx && i != nonStrikerIdx then i
    else findNextFrom strikerIdx nonStrikerIdx ps (i + 1)

/-- The whole "find next player" loop, from `i = 0`. -/
def findNext (players : List Player) (strikerIdx nonStrikerIdx : Nat) : Nat :=
  findNextFrom strikerIdx nonStrikerIdx players 0

/-- One iteration of the ball loop of `simulateOver` (one delivery). -/
def ballBody (rand : Nat → Nat) (c : Crease) : Option Crease :=
  match c.team.players[c.strikerIdx]? with
  | none => none
  | some striker =>
    let (run, striker') := simulateBall (rand c.drawn) striker
    let players' := c.team.players.set c.strikerIdx striker'
    if run = -1 then
      some { c with
        team := { c.team with players := players', wickets := c.team.wickets + 1 }
        strikerIdx := findNext players' c.strikerIdx c.nonStrikerIdx
        drawn := c.drawn + 1 }
    else if run % 2 ≠ 0 then
      some { c with
        team := { c.team with players := players', totalRuns := c.team.totalRuns + run }
        strikerIdx := c.nonStrikerIdx
        nonStrikerIdx := c.strikerIdx
        drawn := c.drawn + 1 }
    else
      some { c with
        team := { c.team with players := players', totalRuns := c.team.totalRuns + run }
        drawn := c.drawn + 1 }

/-- The ball loop of `simulateOver` run for `n` iterations. -/
def bowl (rand : Nat → Nat) : Nat → Crease → Option Crease
  | 0, c => some c
  | n + 1, c => (ballBody rand c).bind (bowl rand n)

/-- The statement `swap(strikerIdx, nonStrikerIdx)`. -/
def swapEnds (c : Crease) : Crease :=
  { c with strikerIdx := c.nonStrikerIdx, nonStrikerIdx := c.strikerIdx }

/-- Function `simulateOver`: six iterations of the ball loop, then the swap.
`overNumber` is passed by value and only printed. -/
def simulateOver (rand : Nat → Nat) (c : Crease) (_overNumber : Nat) : Option Crease :=
  (bowl rand 6 c).map swapEnds

/-- The condition of the `while` loop of `simulateInnings`. -/
def inningsGuard (c : Crease) (overNumber : Nat) : Bool :=
  decide (c.team.wickets < 10) && decide (overNumber ≤ 50)

set_option linter.unusedVariables false in
/-- The `while` loop of `simulateInnings`; returns the loop variables on exit. -/
def inningsLoop (rand : Nat → Nat) (c : Crease) (overNumber : Nat) : Option (Crease × Nat) :=
  if h : inningsGuard c overNumber = true then
    match simulateOver rand c overNumber with
    | none => none
    | some c' => inningsLoop rand c' (overNumber + 1)
  else some (c, overNumber)
termination_by 51 - overNumber
decreasing_by
  simp only [inningsGuard, Bool.and_eq_true, decide_eq_true_eq] at h
  omega

/-- The local variables of `simulateInnings` when the loop is entered. -/
def openers (team : Team) (drawn : Nat) : Crease :=
  { team := team, strikerIdx := 0, nonStrikerIdx := 1, drawn := drawn }

/-- Function `simulateInnings`, for a team and the number of `rand()` calls
made before it; returns the team, the call count and `overNumber` on return. -/
def simulateInnings (rand : Nat → Nat) (team : Team) (drawn : Nat) : Option (Crease × Nat) :=
  inningsLoop rand (openers team drawn) 1

/-- The loop of `createTeam`, `for (i = ...; i <= 11; i++)`, with `n` iterations left. -/
def createPlayers : Nat → Nat → List Player
  | 0, _ => []
  | n + 1, i =>
    { name := "Player" ++ toString i, runs := 0, balls := 0, out := false }
      :: createPlayers n (i + 1)

/-- Function `createTeam`. -/
def createTeam (name : String) : Team :=
  { name := name, players := createPlayers 11 1, totalRuns := 0, wickets := 0 }

/-- The first `k` iterations of the `while` loop of `simulateInnings` (fewer
when the loop exits earlier): the loop variables at that point. -/
def inningsUpTo (rand : Nat → Nat) : Nat → Crease → Nat → Option (Crease × Nat)
  | 0, c, overNumber => some (c, overNumber)
  | k + 1, c, overNumber =>
    if inningsGuard c overNumber = true then
      match simulateOver rand c overNumber with
      | none => none
      | some c' => inningsUpTo rand k c' (overNumber + 1)
    else some (c, overNumber)

/-- The state right after delivery `j` of the over that follows `k` completed
iterations of the `while` loop of `simulateInnings` (`j = 0`: when that over
begins); `none` when the loop has exited and no such over is bowled. -/
def afterBall (rand : Nat → Nat) (team : Team) (drawn k j : Nat) : Option Crease :=
  match inningsUpTo rand k (openers team drawn) 1 with
  | none => none
  | some (c, overNumber) =>
    if inningsGuard c overNumber = true then bowl rand j c else none

/-- Sum of `players[i].runs` over a roster. -/
def sumRuns (players : List Player) : Int :=
  (players.map (fun p => p.runs)).sum

/-- Number of players whose `out` flag is set. -/
def outCount (players : List Player) : Nat :=
  players.countP (fun p => p.out)

/-- The test of the "find next player" loop at index `i`:
`!players[i].out && i != strikerIdx && i != nonStrikerIdx`. -/
def Eligible (strikerIdx nonStrikerIdx i : Nat) (p : Player) : Prop :=
  p.out = false ∧ i ≠ strikerIdx ∧ i ≠ nonStrikerIdx

/-- Both index variables are within the roster. -/
def InRange (c : Crease) : Prop :=
  c.strikerIdx < c.team.players.length ∧ c.nonStrikerIdx < c.team.players.length

/-- The team total agrees with the sum of the individual tallies. -/
def Tally (c : Crease) : Prop :=
  c.team.totalRuns = sumRuns c.team.players

/-- Index `i` is within the roster and refers to a player whose `out` flag is
false. -/
def NotOutAt (players : List Player) (i : Nat) : Prop :=
  ∃ p, players[i]? = some p ∧ p.out = false

/-- The batting-order picture of an eleven-player innings: the two indices are
distinct and in range, and while fewer than ten wickets have fallen the players
already out are exactly those up to position `wickets + 1` other than the two
at the crease. -/
def InOrder (c : Crease) : Prop :=
  c.team.players.length = 11 ∧ c.strikerIdx ≠ c.nonStrikerIdx ∧ InRange c ∧
  (c.team.wickets < 10 →
    0 ≤ c.team.wickets ∧ (c.strikerIdx : Int) ≤ c.team.wickets + 1 ∧
    (c.nonStrikerIdx : Int) ≤ c.team.wickets + 1 ∧
    ∀ (i : Nat) (p : Player), c.team.players[i]? = some p →
      (p.out = true ↔
        ((i : Int) ≤ c.team.wickets + 1 ∧ i ≠ c.strikerIdx ∧ i ≠ c.nonStrikerIdx)))

/-- Sample draw stream: every `rand()` value is `0`, so every delivery is a
dismissal. -/
def allOutDraws : Nat → Nat := fun _ => 0

/-- The state after eleven deliveries of `allOutDraws` on a fresh team: ten
players are out, the striker at index 10 has been dismissed twice. -/
def elevenWickets : Crease :=
  { team :=
      { name := "Red Warriors"
        players := (createPlayers 11 1).map fun p =>
          if p.name = "Player8" then p else { p with out := true }
        totalRuns := 0
        wickets := 11 }
    strikerIdx := 10
    nonStrikerIdx := 7
    drawn := 11 }

/-- Sample draw stream: the `i`-th `rand()` value is `i`. -/
def countUp : Nat → Nat := fun i => i

/-- The state after three deliveries of `countUp` on a fresh team. -/
def sampleCrease : Crease :=
  { team :=
      { name := "Red Warriors"
        players :=
          [{ name := "Player1", runs := 0, balls := 0, out := true },
           { name := "Player2", runs := 2, balls := 1, out := false },
           { name := "Player3", runs := 1, balls := 1, out := false }] ++ createPlayers 8 4
        totalRuns := 3
        wickets := 1 }
    strikerIdx := 1
    nonStrikerIdx := 2
    drawn := 3 }

/-- The state after the first over of `countUp` on a fresh team. -/
def afterFirstOver : Crease :=
  { team :=
      { name := "Red Warriors"
        players :=
          [{ name := "Player1", runs := 0, balls := 0, out := true },
           { name := "Player2", runs := 5, balls := 2, out := false },
           { name := "Player3", runs := 10, balls := 3, out := false }] ++ createPlayers 8 4
        totalRuns := 15
        wickets := 1 }
    strikerIdx := 2
    nonStrikerIdx := 1
    drawn := 6 }

/-- Sum of `players[i].balls` over a roster. -/
def sumBalls (players : List Player) : Int :=
  (players.map (fun p => p.balls)).sum

/-- While fewer than ten wickets have fallen, the players beyond position
`wickets + 1` have not batted yet. -/
def Untouched (c : Crease) : Prop :=
  c.team.wickets < 10 →
    ∀ (i : Nat) (p : Player), c.team.players[i]? = some p → c.team.wickets + 1 < (i : Int) →
      p.runs = 0 ∧ p.balls = 0

/-- Every `rand()` call since call number `d0` was one delivery, and each
delivery added one ball faced or one wicket. -/
def Accounted (d0 : Nat) (c : Crease) : Prop :=
  sumBalls c.team.players + c.team.wickets + (d0 : Int) = (c.drawn : Int)

/-- The delivery decision in the words of the spec (section 4.1): a
wicket-chance value below the threshold 15 is a dismissal, otherwise the run
value is credited to the batter. To be compared with `simulateBall`. -/
def specBall (wicketChance run : Nat) (player : Player) : Int × Player :=
  if wicketChance < 15 then
    (-1, { player with out := true })
  else
    ((run : Int), { player with runs := player.runs + (run : Int), balls := player.balls + 1 })

/-- The first player of a team of `createTeam`. -/
def player1 : Player := { name := "Player1", runs := 0, balls := 0, out := false }

/-- A draw stream that starts with the listed values (and is `0` afterwards). -/
def drawsOf (l : List Nat) : Nat → Nat := fun i => l.getD i 0

/-- Which of the three result lines a match prints. -/
inductive Verdict where
  | team1Wins
  | team2Wins
  | drawn
  deriving DecidableEq, Repr

/-- The verdict seen from the other side. -/
def Verdict.exchange : Verdict → Verdict
  | .team1Wins => .team2Wins
  | .team2Wins => .team1Wins
  | .drawn => .drawn

/-- The final `if` chain of `simulateMatch`: `team1.name + " won the match!"`,
`team2.name + " won the match!"` or `"Match drawn!"`. -/
def matchVerdict (team1 team2 : Team) : Verdict :=
  if team1.totalRuns > team2.totalRuns then .team1Wins
  else if team1.totalRuns < team2.totalRuns then .team2Wins
  else .drawn

/-- Function `simulateMatch`: the toss (one `rand()` call, printed only), the
two innings, the verdict. Returns both teams as left by their innings. -/
def simulateMatch (rand : Nat → Nat) (team1 team2 : Team) : Option (Team × Team × Verdict) :=
  match simulateInnings rand team1 1 with
  | none => none
  | some (c1, _) =>
    match simulateInnings rand team2 c1.drawn with
    | none => none
    | some (c2, _) => some (c1.team, c2.team, matchVerdict c1.team c2.team)

/-! ## `cricket.c`

`playInnings` starts with `srand(time(0x2A))`: `gen seed` is the stream of
`rand()` values that `srand(seed)` starts and `now` the calendar time.
`inningsBody` is the rest of the function, for a stream `rand`; the product
`overs * 6` is a 32-bit `int`, undefined when it overflows. The tallies are
mathematical integers (their overflow is undefined and not modelled).
`vector<Player>` holds plain `Player` objects, for which
the source declares no `takeWicket`; its effect on a record is a parameter.
The two teams of an innings are distinct objects. Output and the sleep between
deliveries are left out. -/

namespace Match

/-- Class `Player` of `cricket.c`. -/
structure Player where
  name : String
  runs : Int
  balls : Int
  deriving DecidableEq, Repr

/-- Method `Player::scoreRun`. -/
def Player.scoreRun (p : Player) (r : Int) : Player :=
  { p with runs := p.runs + r, balls := p.balls + 1 }

/-- Class `Team` of `cricket.c`. -/
structure Team where
  name : String
  players : List Player
  totalRuns : Int
  wicketsLost : Int
  deriving DecidableEq, Repr

/-- The constructor `Team(n, pNames)`. -/
def Team.create (n : String) (pNames : List String) : Team :=
  { name := n
    players := pNames.map fun pn => { name := pn, runs := 0, balls := 0 }
    totalRuns := 0
    wicketsLost := 0 }

/-- Method `Team::addRuns`. -/
def Team.addRuns (t : Team) (r : Int) : Team :=
  { t with totalRuns := t.totalRuns + r }

/-- Method `Team::loseWicket`. -/
def Team.loseWicket (t : Team) : Team :=
  { t with wicketsLost := t.wicketsLost + 1 }

/-- The access `players[i]` for an `int` index: `none` outside the vector. -/
def playerAt (players : List Player) (i : Int) : Option Player :=
  if i < 0 then none else players[i.toNat]?

/-- The variables of `playInnings`: the two teams, the loop counter `i` and the
number of `rand()` calls so far. -/
structure Innings where
  batting : Team
  bowling : Team
  i : Nat
  drawn : Nat
  deriving DecidableEq, Repr

/-- The test `batting.wicketsLost < batting.players.size()`. The `int` is
converted to `size_t`, so a negative `wicketsLost` compares as a huge value. -/
def wicketsInHand (batting : Team) : Bool :=
  decide (0 ≤ batting.wicketsLost) && decide (batting.wicketsLost < (batting.players.length : Int))

/-- One iteration of the delivery loop of `playInnings`. -/
def delivery (rand : Nat → Nat) (takeWicket : Player → Player) (s : Innings) : Option Innings :=
  let r : Int := ((rand s.drawn % 7 : Nat) : Int)
  let wicketChance := rand (s.drawn + 1) % 100
  if wicketChance < 15 then
    let batting := s.batting.loseWicket
    if s.bowling.players.length = 0 then none
    else
      let b := rand (s.drawn + 2) % s.bowling.players.length
      match s.bowling.players[b]? with
      | none => none
      | some bowler =>
        match playerAt batting.players (batting.wicketsLost - 1) with
        | none => none
        | some _ =>
          some { s with
            batting := batting
            bowling := { s.bowling with players := s.bowling.players.set b (takeWicket bowler) }
            drawn := s.drawn + 3 }
  else
    let batting := s.batting.addRuns r
    match playerAt batting.players batting.wicketsLost with
    | none => none
    | some p =>
      some { s with
        batting := { batting with
          players := batting.players.set batting.wicketsLost.toNat (p.scoreRun r) }
        drawn := s.drawn + 2 }

/-- The delivery loop of `playInnings`,
`for (...; i < ballsPerInning && wicketsLost < size; i++)`, with `n` the
value of `ballsPerInning - i`. -/
def ballLoop (rand : Nat → Nat) (takeWicket : Player → Player) : Nat → Innings → Option Innings
  | 0, s => some s
  | n + 1, s =>
    if wicketsInHand s.batting = true then
      match delivery rand takeWicket s with
      | none => none
      | some s' => ballLoop rand takeWicket n { s' with i := s'.i + 1 }
    else some s

/-- The variables of `playInnings` before the first iteration. -/
def kickoff (batting bowling : Team) : Innings :=
  { batting := batting, bowling := bowling, i := 0, drawn := 0 }

/-- The values of a 32-bit `int`. -/
def fitsInt (x : Int) : Bool :=
  decide (-2147483648 ≤ x) && decide (x ≤ 2147483647)

/-- The library call `time(tloc)` with the pointer written as an integer
constant. With the null pointer it returns the calendar time `now`. Any other
constant is not the address of an object, and the store of the time through it
is undefined behaviour. -/
def timeCall (now tloc : Nat) : Option Nat :=
  if tloc = 0 then some now else none

/-- The statements of `playInnings` after the first:
`int ballsPerInning = overs * 6;`, undefined when the product overflows, and
the delivery loop, run on the stream `rand`. -/
def inningsBody (rand : Nat → Nat) (takeWicket : Player → Player) (overs : Int)
    (batting bowling : Team) : Option Innings :=
  if fitsInt (overs * 6) = true then
    ballLoop rand takeWicket (overs * 6).toNat (kickoff batting bowling)
  else none

/-- Method `Match::playInnings` with `overs` the field of the match: the
statement `srand(time(0x2A))`, then `inningsBody` on the stream it starts. -/
def playInnings (gen : Nat → Nat → Nat) (now : Nat) (takeWicket : Player → Player)
    (overs : Int) (batting bowling : Team) : Option Innings :=
  match timeCall now 0x2A with
  | none => none
  | some seed => inningsBody (gen seed) takeWicket overs batting bowling

/-- Method `Match::announceWinner`: `team1.name << " wins!"`,
`team2.name << " wins!"` or `"Match Drawn!"`. -/
def announceWinner (team1 team2 : Team) : Verdict :=
  if team1.totalRuns > team2.totalRuns then .team1Wins
  else if team2.totalRuns > team1.totalRuns then .team2Wins
  else .drawn

/-- Bounds that keep every access of the loop inside its vector: the batting
roster has `n` players, the wicket count is within `0..n`, the bowling roster
is not empty. -/
def InBounds (n : Nat) (s : Innings) : Prop :=
  s.batting.players.length = n ∧ 0 ≤ s.batting.wicketsLost ∧
    s.batting.wicketsLost ≤ (n : Int) ∧ s.bowling.players ≠ []

/-- A batter who has not batted yet. -/
def alice : Player := { name := "Alice", runs := 0, balls := 0 }

/-- The batting side of `main`. -/
def warriors : Team :=
  Team.create "Warriors" ["Alice", "Bob", "Charlie", "David", "Eve", "Frank", "Grace",
    "Hannah", "Ivan", "Jack", "Karen"]

/-- The bowling side of `main`. -/
def knights : Team :=
  Team.create "Knights" ["Leo", "Mona", "Nina", "Oscar", "Paul", "Quincy", "Rita",
    "Steve", "Tracy", "Uma", "Victor"]

end Match

/-! ## One delivery -/

theorem ballBody_wicket (rand : Nat → Nat) (c : Crease) (striker : Player)
    (hs : c.team.players[c.strikerIdx]? = some striker) (hd : rand c.drawn % 7 = 0) :
    ballBody rand c = some { c with
      team := { c.team with
        players := c.team.players.set c.strikerIdx { striker with out := true }
        wickets := c.team.wickets + 1 }
      strikerIdx := findNext (c.team.players.set c.strikerIdx { striker with out := true })
        c.strikerIdx c.nonStrikerIdx
      drawn := c.drawn + 1 } := by
  simp [ballBody, simulateBall, hs, hd]

theorem ballBody_odd (rand : Nat → Nat) (c : Crease) (striker : Player)
    (hs : c.team.players[c.strikerIdx]? = some striker) (ho : rand c.drawn % 7 % 2 = 1) :
    ballBody rand c = some { c with
      team := { c.team with
        players := c.team.players.set c.strikerIdx
          { striker with runs := striker.runs + ((rand c.drawn % 7 : Nat) : Int)
                         balls := striker.balls + 1 }
        totalRuns := c.team.totalRuns + ((rand c.drawn % 7 : Nat) : Int) }
      strikerIdx := c.nonStrikerIdx
      nonStrikerIdx := c.strikerIdx
      drawn := c.drawn + 1 } := by
  have h1 : ((rand c.drawn % 7 : Nat) : Int) ≠ 0 := by omega
  have h2 : ((rand c.drawn % 7 : Nat) : Int) ≠ -1 := by omega
  have h3 : ((rand c.drawn % 7 : Nat) : Int) % 2 ≠ 0 := by omega
  simp only [ballBody, simulateBall, hs]
  simp only [Nat.cast_ofNat] at h1 h2 h3 ⊢
  rw [if_neg h1]
  simp only [if_neg h2]
  rw [if_pos h3]

theorem ballBody_even (rand : Nat → Nat) (c : Crease) (striker : Player)
    (hs : c.team.players[c.strikerIdx]? = some striker) (hd : rand c.drawn % 7 ≠ 0)
    (he : rand c.drawn % 7 % 2 = 0) :
    ballBody rand c = some { c with
      team := { c.team with
        players := c.team.players.set c.strikerIdx
          { striker with runs := striker.runs + ((rand c.drawn % 7 : Nat) : Int)
                         balls := striker.balls + 1 }
        totalRuns := c.team.totalRuns + ((rand c.drawn % 7 : Nat) : Int) }
      drawn := c.drawn + 1 } := by
  have h1 : ((rand c.drawn % 7 : Nat) : Int) ≠ 0 := by omega
  have h2 : ((rand c.drawn % 7 : Nat) : Int) ≠ -1 := by omega
  have h3 : ¬ ((rand c.drawn % 7 : Nat) : Int) % 2 ≠ 0 := by omega
  simp only [ballBody, simulateBall, hs]
  simp only [Nat.cast_ofNat] at h1 h2 h3 ⊢
  rw [if_neg h1]
  simp only [if_neg h2]
  rw [if_neg h3]

theorem ballBody_none (rand : Nat → Nat) (c : Crease)
    (hs : c.team.players[c.strikerIdx]? = none) : ballBody rand c = none := by
  simp [ballBody, hs]

/-- Case analysis of one delivery: a dismissal, an odd run value or an even
non-zero run value. -/
theorem ballBody_elim {rand : Nat → Nat} {c c' : Crease} (P : Crease → Prop)
    (h : ballBody rand c = some c')
    (hw : ∀ striker, c.team.players[c.strikerIdx]? = some striker → rand c.drawn % 7 = 0 →
      P { c with
        team := { c.team with
          players := c.team.players.set c.strikerIdx { striker with out := true }
          wickets := c.team.wickets + 1 }
        strikerIdx := findNext (c.team.players.set c.strikerIdx { striker with out := true })
          c.strikerIdx c.nonStrikerIdx
        drawn := c.drawn + 1 })
    (ho : ∀ striker, c.team.players[c.strikerIdx]? = some striker →
      rand c.drawn % 7 % 2 = 1 →
      P { c with
        team := { c.team with
          players := c.team.players.set c.strikerIdx
            { striker with runs := striker.runs + ((rand c.drawn % 7 : Nat) : Int)
                           balls := striker.balls + 1 }
          totalRuns := c.team.totalRuns + ((rand c.drawn % 7 : Nat) : Int) }
        strikerIdx := c.nonStrikerIdx
        nonStrikerIdx := c.strikerIdx
        drawn := c.drawn + 1 })
    (he : ∀ striker, c.team.players[c.strikerIdx]? = some striker →
      rand c.drawn % 7 ≠ 0 → rand c.drawn % 7 % 2 = 0 →
      P { c with
        team := { c.team with
          players := c.team.players.set c.strikerIdx
            { striker with runs := striker.runs + ((rand c.drawn % 7 : Nat) : Int)
                           balls := striker.balls + 1 }
          totalRuns := c.team.totalRuns + ((rand c.drawn % 7 : Nat) : Int) }
        drawn := c.drawn + 1 }) :
    P c' := by
  cases hs : c.team.players[c.strikerIdx]? with
  | none => rw [ballBody_none rand c hs] at h; cases h
  | some striker =>
    by_cases hd : rand c.drawn % 7 = 0
    · rw [ballBody_wicket rand c striker hs hd] at h
      cases h
      exact hw striker hs hd
    · rcases Nat.mod_two_eq_zero_or_one (rand c.drawn % 7) with h0 | h1
      · rw [ballBody_even rand c striker hs hd h0] at h
        cases h
        exact he striker hs hd h0
      · rw [ballBody_odd rand c striker hs h1] at h
        cases h
        exact ho striker hs h1

/-! ## Lifting a property of one delivery to overs and the innings -/

theorem bowl_preserves {rand : Nat → Nat} (P : Crease → Prop)
    (hstep : ∀ c c', P c → ballBody rand c = some c' → P c') :
    ∀ (j : Nat) (c c' : Crease), P c → bowl rand j c = some c' → P c' := by
  intro j
  induction j with
  | zero =>
    intro c c' hc h
    simp only [bowl, Option.some.injEq] at h
    exact h ▸ hc
  | succ j ih =>
    intro c c' hc h
    simp only [bowl, Option.bind_eq_some] at h
    obtain ⟨c1, h1, h2⟩ := h
    exact ih c1 c' (hstep c c1 hc h1) h2

theorem simulateOver_preserves {rand : Nat → Nat} (P : Crease → Prop)
    (hstep : ∀ c c', P c → ballBody rand c = some c' → P c')
    (hswap : ∀ c, P c → P (swapEnds c))
    (c c' : Crease) (n : Nat) (hc : P c) (h : simulateOver rand c n = some c') : P c' := by
  simp only [simulateOver, Option.map_eq_some'] at h
  obtain ⟨b, hb, rfl⟩ := h
  exact hswap b (bowl_preserves P hstep 6 c b hc hb)

theorem inningsUpTo_preserves {rand : Nat → Nat} (P : Crease → Prop)
    (hstep : ∀ c c', P c → ballBody rand c = some c' → P c')
    (hswap : ∀ c, P c → P (swapEnds c)) :
    ∀ (k : Nat) (c : Crease) (n : Nat) (r : Crease × Nat),
      P c → inningsUpTo rand k c n = some r → P r.1 := by
  intro k
  induction k with
  | zero =>
    intro c n r hc h
    simp only [inningsUpTo, Option.some.injEq] at h
    exact h ▸ hc
  | succ k ih =>
    intro c n r hc h
    simp only [inningsUpTo] at h
    split at h
    · cases ho : simulateOver rand c n with
      | none => simp [ho] at h
      | some c1 =>
        simp only [ho] at h
        exact ih c1 (n + 1) r (simulateOver_preserves P hstep hswap c c1 n hc ho) h
    · simp only [Option.some.injEq] at h
      exact h ▸ hc

theorem afterBall_preserves {rand : Nat → Nat} (P : Crease → Prop)
    (hstep : ∀ c c', P c → ballBody rand c = some c' → P c')
    (hswap : ∀ c, P c → P (swapEnds c))
    (team : Team) (drawn k j : Nat) (c : Crease)
    (h0 : P (openers team drawn)) (h : afterBall rand team drawn k j = some c) : P c := by
  simp only [afterBall] at h
  cases hp : inningsUpTo rand k (openers team drawn) 1 with
  | none => simp [hp] at h
  | some r =>
    simp only [hp] at h
    split at h
    · exact bowl_preserves P hstep j r.1 c
        (inningsUpTo_preserves P hstep hswap k _ 1 r h0 hp) h
    · cases h

/-- The `while` loop agrees with its first `k` iterations once `k` covers the
overs left up to over 50. -/
theorem inningsLoop_eq_inningsUpTo (rand : Nat → Nat) :
    ∀ (k : Nat) (c : Crease) (n : Nat), 51 ≤ k + n →
      inningsLoop rand c n = inningsUpTo rand k c n := by
  intro k
  induction k with
  | zero =>
    intro c n hn
    have hg : ¬ inningsGuard c n = true := by
      simp only [inningsGuard, Bool.and_eq_true, decide_eq_true_eq]
      omega
    rw [inningsLoop]
    simp [hg, inningsUpTo]
  | succ k ih =>
    intro c n hn
    rw [inningsLoop]
    simp only [inningsUpTo]
    by_cases hg : inningsGuard c n = true
    · simp only [hg, dite_true, if_true]
      cases simulateOver rand c n with
      | none => rfl
      | some c1 => exact ih c1 (n + 1) (by omega)
    · simp [hg]

theorem simulateInnings_eq_inningsUpTo (rand : Nat → Nat) (team : Team) (drawn : Nat) :
    simulateInnings rand team drawn = inningsUpTo rand 50 (openers team drawn) 1 :=
  inningsLoop_eq_inningsUpTo rand 50 _ 1 (by omega)

/-! ## The search for the next batter -/

theorem findNextFrom_spec (s n : Nat) :
    ∀ (l : List Player) (i0 : Nat),
      ((∀ j p, l[j]? = some p → ¬ Eligible s n (i0 + j) p) ∧ findNextFrom s n l i0 = s) ∨
      (∃ j p, l[j]? = some p ∧ Eligible s n (i0 + j) p ∧
        (∀ j', j' < j → ∀ p', l[j']? = some p' → ¬ Eligible s n (i0 + j') p') ∧
        findNextFrom s n l i0 = i0 + j) := by
  intro l
  induction l with
  | nil =>
    intro i0
    left
    exact ⟨by intro j p h; simp at h, rfl⟩
  | cons q qs ih =>
    intro i0
    by_cases hq : Eligible s n i0 q
    · right
      refine ⟨0, q, by simp, by simpa using hq, ?_, ?_⟩
      · intro j' hj'
        omega
      · obtain ⟨h1, h2, h3⟩ := hq
        simp [findNextFrom, h1, h2, h3]
    · have hstep : findNextFrom s n (q :: qs) i0 = findNextFrom s n qs (i0 + 1) := by
        simp only [Eligible, not_and, not_not] at hq
        simp only [findNextFrom]
        rw [if_neg]
        simp only [Bool.and_eq_true, Bool.not_eq_true', bne_iff_ne, ne_eq, not_and, not_not]
        exact fun h => hq h.1 h.2
      rcases ih (i0 + 1) with ⟨hA, hr⟩ | ⟨j, p, hj, he, hmin, hr⟩
      · left
        refine ⟨?_, by rw [hstep, hr]⟩
        intro j p hj
        cases j with
        | zero =>
          simp only [List.getElem?_cons_zero, Option.some.injEq] at hj
          subst hj
          simpa using hq
        | succ j =>
          simp only [List.getElem?_cons_succ] at hj
          have := hA j p hj
          rwa [Nat.add_assoc, Nat.add_comm 1 j] at this
      · right
        refine ⟨j + 1, p, by simpa using hj, ?_, ?_, ?_⟩
        · rwa [Nat.add_assoc, Nat.add_comm 1 j] at he
        · intro j' hj' p' hp'
          cases j' with
          | zero =>
            simp only [List.getElem?_cons_zero, Option.some.injEq] at hp'
            subst hp'
            simpa using hq
          | succ j' =>
            simp only [List.getElem?_cons_succ] at hp'
            have := hmin j' (by omega) p' hp'
            rwa [Nat.add_assoc, Nat.add_comm 1 j'] at this
        · rw [hstep, hr]
          omega

/-- What the search returns: the old striker index when no index passes the
test, and otherwise the smallest index that passes it. -/
theorem findNext_spec (players : List Player) (s n : Nat) :
    ((∀ j p, players[j]? = some p → ¬ Eligible s n j p) ∧ findNext players s n = s) ∨
    (∃ j p, players[j]? = some p ∧ Eligible s n j p ∧
      (∀ j', j' < j → ∀ p', players[j']? = some p' → ¬ Eligible s n j' p') ∧
      findNext players s n = j) := by
  have h := findNextFrom_spec s n players 0
  simpa [findNext] using h

theorem findNext_lt (players : List Player) (s n : Nat) (hs : s < players.length) :
    findNext players s n < players.length := by
  rcases findNext_spec players s n with ⟨_, hr⟩ | ⟨j, p, hj, _, _, hr⟩
  · rw [hr]; exact hs
  · rw [hr]
    exact (List.getElem?_eq_some.mp hj).1

theorem findNext_ne (players : List Player) (s n : Nat) (hsn : s ≠ n) :
    findNext players s n ≠ n := by
  rcases findNext_spec players s n with ⟨_, hr⟩ | ⟨j, p, _, he, _, hr⟩
  · rw [hr]; exact hsn
  · rw [hr]; exact he.2.2

/-! ## Index validity and totality -/

theorem ballBody_inRange (rand : Nat → Nat) (c c' : Crease) (hc : InRange c)
    (h : ballBody rand c = some c') : InRange c' := by
  obtain ⟨h1, h2⟩ := hc
  refine ballBody_elim InRange h ?_ ?_ ?_
  · intro striker _ _
    refine ⟨?_, by simpa [InRange] using h2⟩
    show findNext _ _ _ < (c.team.players.set _ _).length
    exact findNext_lt _ _ _ (by simpa using h1)
  · intro striker _ _
    exact ⟨by simpa using h2, by simpa using h1⟩
  · intro striker _ _ _
    exact ⟨by simpa using h1, by simpa using h2⟩

theorem swapEnds_inRange (c : Crease) (hc : InRange c) : InRange (swapEnds c) :=
  ⟨hc.2, hc.1⟩

theorem ballBody_total (rand : Nat → Nat) (c : Crease) (hc : InRange c) :
    ∃ c', ballBody rand c = some c' := by
  obtain ⟨striker, hs⟩ : ∃ p, c.team.players[c.strikerIdx]? = some p :=
    ⟨c.team.players.get ⟨c.strikerIdx, hc.1⟩, by simp [hc.1]⟩
  by_cases hd : rand c.drawn % 7 = 0
  · exact ⟨_, ballBody_wicket rand c striker hs hd⟩
  · rcases Nat.mod_two_eq_zero_or_one (rand c.drawn % 7) with h0 | h1
    · exact ⟨_, ballBody_even rand c striker hs hd h0⟩
    · exact ⟨_, ballBody_odd rand c striker hs h1⟩

theorem bowl_total (rand : Nat → Nat) :
    ∀ (j : Nat) (c : Crease), InRange c → ∃ c', bowl rand j c = some c' := by
  intro j
  induction j with
  | zero => intro c _; exact ⟨c, rfl⟩
  | succ j ih =>
    intro c hc
    obtain ⟨c1, h1⟩ := ballBody_total rand c hc
    obtain ⟨c2, h2⟩ := ih c1 (ballBody_inRange rand c c1 hc h1)
    exact ⟨c2, by simp [bowl, h1, h2]⟩

theorem simulateOver_total (rand : Nat → Nat) (c : Crease) (n : Nat) (hc : InRange c) :
    ∃ c', simulateOver rand c n = some c' := by
  obtain ⟨b, hb⟩ := bowl_total rand 6 c hc
  exact ⟨swapEnds b, by simp [simulateOver, hb]⟩

theorem inningsUpTo_total (rand : Nat → Nat) :
    ∀ (k : Nat) (c : Crease) (n : Nat), InRange c → ∃ r, inningsUpTo rand k c n = some r := by
  intro k
  induction k with
  | zero => intro c n _; exact ⟨(c, n), rfl⟩
  | succ k ih =>
    intro c n hc
    by_cases hg : inningsGuard c n = true
    · obtain ⟨c1, h1⟩ := simulateOver_total rand c n hc
      obtain ⟨r, hr⟩ := ih c1 (n + 1)
        (simulateOver_preserves InRange (ballBody_inRange rand) swapEnds_inRange c c1 n hc h1)
      exact ⟨r, by simp [inningsUpTo, hg, h1, hr]⟩
    · exact ⟨(c, n), by simp [inningsUpTo, hg]⟩

/-- With both indices in range, every over that the innings loop starts can be
followed delivery by delivery: no access is out of range. -/
theorem afterBall_defined (rand : Nat → Nat) (team : Team) (drawn k j : Nat)
    (h0 : InRange (openers team drawn)) :
    ∃ c n, inningsUpTo rand k (openers team drawn) 1 = some (c, n) ∧
      (inningsGuard c n = true → ∃ b, afterBall rand team drawn k j = some b) := by
  obtain ⟨⟨c, n⟩, h⟩ := inningsUpTo_total rand k (openers team drawn) 1 h0
  refine ⟨c, n, h, ?_⟩
  intro hg
  have hc : InRange c :=
    inningsUpTo_preserves InRange (ballBody_inRange rand) swapEnds_inRange k _ 1 (c, n) h0 h
  obtain ⟨b, hb⟩ := bowl_total rand j c hc
  exact ⟨b, by simp [afterBall, h, hg, hb]⟩

/-! ## Rosters built by `createTeam` -/

theorem createPlayers_length : ∀ (n i : Nat), (createPlayers n i).length = n := by
  intro n
  induction n with
  | zero => intro i; rfl
  | succ n ih => intro i; simp [createPlayers, ih]

theorem createPlayers_fresh :
    ∀ (n i j : Nat) (p : Player), (createPlayers n i)[j]? = some p →
      p.runs = 0 ∧ p.balls = 0 ∧ p.out = false := by
  intro n
  induction n with
  | zero => intro i j p h; simp [createPlayers] at h
  | succ n ih =>
    intro i j p h
    cases j with
    | zero =>
      simp only [createPlayers, List.getElem?_cons_zero, Option.some.injEq] at h
      subst h
      exact ⟨rfl, rfl, rfl⟩
    | succ j =>
      simp only [createPlayers, List.getElem?_cons_succ] at h
      exact ih (i + 1) j p h

theorem openers_inRange (name : String) (drawn : Nat) :
    InRange (openers (createTeam name) drawn) := by
  simp [InRange, openers, createTeam, createPlayers_length]

/-! ## The run tally -/

theorem sumRuns_set :
    ∀ (l : List Player) (i : Nat) (p q : Player), l[i]? = some p →
      sumRuns (l.set i q) = sumRuns l - p.runs + q.runs := by
  intro l
  induction l with
  | nil => intro i p q h; simp at h
  | cons a l ih =>
    intro i p q h
    cases i with
    | zero =>
      simp only [List.getElem?_cons_zero, Option.some.injEq] at h
      subst h
      simp only [sumRuns, List.set_cons_zero, List.map_cons, List.sum_cons]
      omega
    | succ i =>
      simp only [List.getElem?_cons_succ] at h
      have := ih i p q h
      simp only [sumRuns, List.set_cons_succ, List.map_cons, List.sum_cons] at this ⊢
      omega

theorem ballBody_tally (rand : Nat → Nat) (c c' : Crease) (hc : Tally c)
    (h : ballBody rand c = some c') : Tally c' := by
  unfold Tally at hc
  refine ballBody_elim Tally h ?_ ?_ ?_
  · intro striker hs _
    simp only [Tally]
    rw [sumRuns_set _ _ striker _ hs]
    simp only
    omega
  · intro striker hs _
    simp only [Tally]
    rw [sumRuns_set _ _ striker _ hs]
    simp only
    omega
  · intro striker hs _ _
    simp only [Tally]
    rw [sumRuns_set _ _ striker _ hs]
    simp only
    omega

theorem swapEnds_tally (c : Crease) (hc : Tally c) : Tally (swapEnds c) := hc

theorem openers_tally (name : String) (drawn : Nat) :
    Tally (openers (createTeam name) drawn) := by
  simp only [Tally, openers, createTeam]
  rfl

/-! ## The batting order while fewer than ten wickets have fallen -/

theorem openers_inOrder (name : String) (drawn : Nat) :
    InOrder (openers (createTeam name) drawn) := by
  refine ⟨by simp [openers, createTeam, createPlayers_length], by simp [openers],
    openers_inRange name drawn, ?_⟩
  intro _
  refine ⟨by simp [openers, createTeam], by simp [openers, createTeam],
    by simp [openers, createTeam], ?_⟩
  intro i p hp
  have hf := (createPlayers_fresh 11 1 i p hp).2.2
  simp only [openers, createTeam]
  constructor
  · intro h; rw [hf] at h; cases h
  · intro h; omega

theorem swapEnds_inOrder (c : Crease) (hc : InOrder c) : InOrder (swapEnds c) := by
  obtain ⟨hlen, hne, hr, hg⟩ := hc
  refine ⟨hlen, fun h => hne h.symm, swapEnds_inRange c hr, ?_⟩
  intro hw
  obtain ⟨h0, h1, h2, h3⟩ := hg hw
  refine ⟨h0, h2, h1, ?_⟩
  intro i p hp
  rw [h3 i p hp]
  simp only [swapEnds]
  constructor
  · rintro ⟨a, b, d⟩; exact ⟨a, d, b⟩
  · rintro ⟨a, b, d⟩; exact ⟨a, d, b⟩

theorem ballBody_inOrder (rand : Nat → Nat) (c c' : Crease) (hc : InOrder c)
    (h : ballBody rand c = some c') : InOrder c' := by
  have hrange := ballBody_inRange rand c c' hc.2.2.1 h
  obtain ⟨hlen, hne, hr, hg⟩ := hc
  revert hrange
  refine ballBody_elim (fun x => InRange x → InOrder x) h ?_ ?_ ?_
  · -- dismissal
    intro striker hs _ hrange
    refine ⟨by simpa using hlen, findNext_ne _ _ _ hne, hrange, ?_⟩
    intro hw
    simp only at hw
    obtain ⟨h0, h1, h2, h3⟩ := hg (by omega)
    -- the next batter in order is at position `wickets + 2`
    have hnext : (findNext (c.team.players.set c.strikerIdx { striker with out := true })
        c.strikerIdx c.nonStrikerIdx : Int) = c.team.wickets + 2 := by
      obtain ⟨q, hq⟩ : ∃ q, c.team.players[(c.team.wickets + 2).toNat]? = some q :=
        ⟨c.team.players.get ⟨(c.team.wickets + 2).toNat, by omega⟩, by
          simp only [List.get_eq_getElem]
          exact List.getElem?_eq_getElem _⟩
      have hqout : q.out = false := by
        have := h3 _ q hq
        cases hqo : q.out with
        | false => rfl
        | true =>
          have := (this.mp hqo).1
          omega
      have hqe : Eligible c.strikerIdx c.nonStrikerIdx (c.team.wickets + 2).toNat q :=
        ⟨hqout, by omega, by omega⟩
      have hq' : (c.team.players.set c.strikerIdx { striker with out := true })[
          (c.team.wickets + 2).toNat]? = some q := by
        rw [List.getElem?_set_ne (by omega)]; exact hq
      rcases findNext_spec (c.team.players.set c.strikerIdx { striker with out := true })
        c.strikerIdx c.nonStrikerIdx with ⟨hA, _⟩ | ⟨j, p, hj, he, hmin, hres⟩
      · exact absurd hqe (hA _ q hq')
      · rw [hres]
        obtain ⟨he1, he2, he3⟩ := he
        rw [List.getElem?_set_ne (by omega)] at hj
        have hjout := h3 j p hj
        have hj1 : ¬ ((j : Int) ≤ c.team.wickets + 1 ∧ j ≠ c.strikerIdx ∧ j ≠ c.nonStrikerIdx) := by
          intro hcon
          rw [hjout.mpr hcon] at he1
          cases he1
        have hj2 : ¬ (c.team.wickets + 2).toNat < j := fun hlt => hmin _ hlt q hq' hqe
        omega
    refine ⟨by simp only; omega, by simp only; omega, by simp only; omega, ?_⟩
    intro i p hp
    simp only at hp ⊢
    by_cases hi : i = c.strikerIdx
    · subst hi
      rw [List.getElem?_set_self hr.1] at hp
      simp only [Option.some.injEq] at hp
      subst hp
      simp only [true_iff]
      exact ⟨by omega, by omega, hne⟩
    · rw [List.getElem?_set_ne (fun h => hi h.symm)] at hp
      rw [h3 i p hp]
      constructor
      · rintro ⟨a, _, d⟩; exact ⟨by omega, by omega, d⟩
      · rintro ⟨a, b, d⟩; exact ⟨by omega, hi, d⟩
  · -- odd run value
    intro striker hs _ hrange
    refine ⟨by simpa using hlen, fun h => hne h.symm, hrange, ?_⟩
    intro hw
    simp only at hw
    obtain ⟨h0, h1, h2, h3⟩ := hg hw
    refine ⟨h0, h2, h1, ?_⟩
    intro i p hp
    simp only at hp ⊢
    by_cases hi : i = c.strikerIdx
    · subst hi
      rw [List.getElem?_set_self hr.1] at hp
      simp only [Option.some.injEq] at hp
      subst hp
      have := h3 _ striker hs
      simp only
      rw [this]
      constructor
      · rintro ⟨a, b, d⟩; exact ⟨a, d, b⟩
      · rintro ⟨a, b, d⟩; exact ⟨a, d, b⟩
    · rw [List.getElem?_set_ne (fun h => hi h.symm)] at hp
      rw [h3 i p hp]
      constructor
      · rintro ⟨a, b, d⟩; exact ⟨a, d, b⟩
      · rintro ⟨a, b, d⟩; exact ⟨a, d, b⟩
  · -- even run value
    intro striker hs _ _ hrange
    refine ⟨by simpa using hlen, hne, hrange, ?_⟩
    intro hw
    simp only at hw
    obtain ⟨h0, h1, h2, h3⟩ := hg hw
    refine ⟨h0, h1, h2, ?_⟩
    intro i p hp
    simp only at hp ⊢
    by_cases hi : i = c.strikerIdx
    · subst hi
      rw [List.getElem?_set_self hr.1] at hp
      simp only [Option.some.injEq] at hp
      subst hp
      exact h3 _ striker hs
    · rw [List.getElem?_set_ne (fun h => hi h.symm)] at hp
      exact h3 i p hp

theorem inOrder_notOut (c : Crease) (hc : InOrder c) (hw : c.team.wickets < 10) :
    c.strikerIdx ≠ c.nonStrikerIdx ∧ NotOutAt c.team.players c.strikerIdx ∧
      NotOutAt c.team.players c.nonStrikerIdx := by
  obtain ⟨_, hne, hr, hg⟩ := hc
  obtain ⟨_, _, _, h3⟩ := hg hw
  have key : ∀ i, i < c.team.players.length → (i = c.strikerIdx ∨ i = c.nonStrikerIdx) →
      NotOutAt c.team.players i := by
    intro i hi hor
    refine ⟨c.team.players.get ⟨i, hi⟩, by simp, ?_⟩
    have := h3 i (c.team.players.get ⟨i, hi⟩) (by simp)
    cases ho : (c.team.players.get ⟨i, hi⟩).out with
    | false => rfl
    | true =>
      have := this.mp ho
      rcases hor with h | h
      · exact absurd h this.2.1
      · exact absurd h this.2.2
  exact ⟨hne, key _ hr.1 (Or.inl rfl), key _ hr.2 (Or.inr rfl)⟩

/-! ## Projections of a roster that a delivery leaves alone -/

theorem map_set_same {β : Type} (f : Player → β) :
    ∀ (l : List Player) (i : Nat) (p q : Player), l[i]? = some p → f q = f p →
      (l.set i q).map f = l.map f := by
  intro l
  induction l with
  | nil => intro i p q h; simp at h
  | cons a l ih =>
    intro i p q h hf
    cases i with
    | zero =>
      simp only [List.getElem?_cons_zero, Option.some.injEq] at h
      subst h
      simp [hf]
    | succ i =>
      simp only [List.getElem?_cons_succ] at h
      simp [ih i p q h hf]

/-- A scored delivery, both parities at once. -/
theorem ballBody_scored (rand : Nat → Nat) (c : Crease) (striker : Player)
    (hs : c.team.players[c.strikerIdx]? = some striker) (hd : rand c.drawn % 7 ≠ 0) :
    ∃ c', ballBody rand c = some c' ∧
      c'.team = { c.team with
        players := c.team.players.set c.strikerIdx
          { striker with runs := striker.runs + ((rand c.drawn % 7 : Nat) : Int)
                         balls := striker.balls + 1 }
        totalRuns := c.team.totalRuns + ((rand c.drawn % 7 : Nat) : Int) } ∧
      c'.drawn = c.drawn + 1 ∧
      ((rand c.drawn % 7 % 2 = 1 ∧ c'.strikerIdx = c.nonStrikerIdx ∧
          c'.nonStrikerIdx = c.strikerIdx) ∨
        (rand c.drawn % 7 % 2 = 0 ∧ c'.strikerIdx = c.strikerIdx ∧
          c'.nonStrikerIdx = c.nonStrikerIdx)) := by
  rcases Nat.mod_two_eq_zero_or_one (rand c.drawn % 7) with h0 | h1
  · exact ⟨_, ballBody_even rand c striker hs hd h0, rfl, rfl, Or.inr ⟨h0, rfl, rfl⟩⟩
  · exact ⟨_, ballBody_odd rand c striker hs h1, rfl, rfl, Or.inl ⟨h1, rfl, rfl⟩⟩

/-! ## Counting draws and overs -/

theorem ballBody_drawn (rand : Nat → Nat) (c c' : Crease) (h : ballBody rand c = some c') :
    c'.drawn = c.drawn + 1 :=
  ballBody_elim (fun x => x.drawn = c.drawn + 1) h
    (fun _ _ _ => rfl) (fun _ _ _ => rfl) (fun _ _ _ _ => rfl)

theorem bowl_drawn (rand : Nat → Nat) :
    ∀ (j : Nat) (c c' : Crease), bowl rand j c = some c' → c'.drawn = c.drawn + j := by
  intro j
  induction j with
  | zero =>
    intro c c' h
    simp only [bowl, Option.some.injEq] at h
    rw [← h]; rfl
  | succ j ih =>
    intro c c' h
    simp only [bowl, Option.bind_eq_some] at h
    obtain ⟨c1, h1, h2⟩ := h
    rw [ih c1 c' h2, ballBody_drawn rand c c1 h1]
    omega

theorem simulateOver_drawn (rand : Nat → Nat) (c c' : Crease) (n : Nat)
    (h : simulateOver rand c n = some c') : c'.drawn = c.drawn + 6 := by
  simp only [simulateOver, Option.map_eq_some'] at h
  obtain ⟨b, hb, rfl⟩ := h
  exact bowl_drawn rand 6 c b hb

theorem inningsGuard_iff (c : Crease) (n : Nat) :
    inningsGuard c n = true ↔ c.team.wickets < 10 ∧ n ≤ 50 := by
  simp [inningsGuard]

theorem inningsUpTo_step (rand : Nat → Nat) (k : Nat) (c c1 : Crease) (n : Nat)
    (hg : inningsGuard c n = true) (ho : simulateOver rand c n = some c1) :
    inningsUpTo rand (k + 1) c n = inningsUpTo rand k c1 (n + 1) := by
  simp [inningsUpTo, hg, ho]

theorem inningsUpTo_exit (rand : Nat → Nat) (k : Nat) (c : Crease) (n : Nat)
    (hg : ¬ inningsGuard c n = true) : inningsUpTo rand k c n = some (c, n) := by
  cases k with
  | zero => rfl
  | succ k => simp [inningsUpTo, hg]

/-- After at most `k` iterations the over number has grown by at most `k`, by
exactly `k` while the loop condition still holds, and each iteration made six
draws. -/
theorem inningsUpTo_overNumber (rand : Nat → Nat) :
    ∀ (k : Nat) (c0 : Crease) (n0 : Nat) (c : Crease) (n : Nat),
      inningsUpTo rand k c0 n0 = some (c, n) →
        n0 ≤ n ∧ n ≤ n0 + k ∧ (inningsGuard c n = true → n = n0 + k) ∧
          c.drawn = c0.drawn + 6 * (n - n0) := by
  intro k
  induction k with
  | zero =>
    intro c0 n0 c n h
    simp only [inningsUpTo, Option.some.injEq, Prod.mk.injEq] at h
    obtain ⟨rfl, rfl⟩ := h
    exact ⟨le_refl _, le_refl _, fun _ => rfl, by simp⟩
  | succ k ih =>
    intro c0 n0 c n h
    by_cases hg : inningsGuard c0 n0 = true
    · cases ho : simulateOver rand c0 n0 with
      | none => simp [inningsUpTo, hg, ho] at h
      | some c1 =>
        rw [inningsUpTo_step rand k c0 c1 n0 hg ho] at h
        obtain ⟨h1, h2, h3, h4⟩ := ih c1 (n0 + 1) c n h
        have hd := simulateOver_drawn rand c0 c1 n0 ho
        refine ⟨by omega, by omega, fun hgc => by have := h3 hgc; omega, ?_⟩
        rw [h4, hd]
        omega
    · rw [inningsUpTo_exit rand (k + 1) c0 n0 hg] at h
      simp only [Option.some.injEq, Prod.mk.injEq] at h
      obtain ⟨rfl, rfl⟩ := h
      exact ⟨le_refl _, by omega, fun hgc => absurd hgc hg, by simp⟩

/-- One more iteration of the loop from a point where its condition holds. -/
theorem inningsUpTo_snoc (rand : Nat → Nat) :
    ∀ (k : Nat) (c0 : Crease) (n0 : Nat) (c c' : Crease) (n : Nat),
      inningsUpTo rand k c0 n0 = some (c, n) → inningsGuard c n = true →
        simulateOver rand c n = some c' →
        inningsUpTo rand (k + 1) c0 n0 = some (c', n + 1) := by
  intro k
  induction k with
  | zero =>
    intro c0 n0 c c' n h hg ho
    simp only [inningsUpTo, Option.some.injEq, Prod.mk.injEq] at h
    obtain ⟨rfl, rfl⟩ := h
    rw [inningsUpTo_step rand 0 c0 c' n0 hg ho]
    rfl
  | succ k ih =>
    intro c0 n0 c c' n h hg ho
    by_cases hg0 : inningsGuard c0 n0 = true
    · cases ho0 : simulateOver rand c0 n0 with
      | none => simp [inningsUpTo, hg0, ho0] at h
      | some c1 =>
        rw [inningsUpTo_step rand k c0 c1 n0 hg0 ho0] at h
        rw [inningsUpTo_step rand (k + 1) c0 c1 n0 hg0 ho0]
        exact ih c1 (n0 + 1) c c' n h hg ho
    · rw [inningsUpTo_exit rand (k + 1) c0 n0 hg0] at h
      simp only [Option.some.injEq, Prod.mk.injEq] at h
      obtain ⟨rfl, rfl⟩ := h
      exact absurd hg hg0

/-- Every iteration that led to `(c, n)` started with the loop condition true,
and `(c, n)` is reached after exactly `n - n0` iterations. -/
theorem inningsUpTo_calls (rand : Nat → Nat) :
    ∀ (K : Nat) (c0 : Crease) (n0 : Nat) (c : Crease) (n : Nat),
      inningsUpTo rand K c0 n0 = some (c, n) →
        (∀ k, k < n - n0 → ∃ ck, inningsUpTo rand k c0 n0 = some (ck, n0 + k) ∧
          inningsGuard ck (n0 + k) = true) ∧
        inningsUpTo rand (n - n0) c0 n0 = some (c, n) := by
  intro K
  induction K with
  | zero =>
    intro c0 n0 c n h
    simp only [inningsUpTo, Option.some.injEq, Prod.mk.injEq] at h
    obtain ⟨rfl, rfl⟩ := h
    exact ⟨fun k hk => by omega, by simp [inningsUpTo]⟩
  | succ K ih =>
    intro c0 n0 c n h
    by_cases hg : inningsGuard c0 n0 = true
    · cases ho : simulateOver rand c0 n0 with
      | none => simp [inningsUpTo, hg, ho] at h
      | some c1 =>
        rw [inningsUpTo_step rand K c0 c1 n0 hg ho] at h
        obtain ⟨h1, h2⟩ := ih c1 (n0 + 1) c n h
        have hle := (inningsUpTo_overNumber rand K c1 (n0 + 1) c n h).1
        constructor
        · intro k hk
          cases k with
          | zero => exact ⟨c0, rfl, hg⟩
          | succ k =>
            obtain ⟨ck, hck, hgk⟩ := h1 k (by omega)
            rw [inningsUpTo_step rand k c0 c1 n0 hg ho]
            have e : n0 + (k + 1) = n0 + 1 + k := by omega
            rw [e]
            exact ⟨ck, hck, hgk⟩
        · have e : n - n0 = (n - (n0 + 1)) + 1 := by omega
          rw [e, inningsUpTo_step rand _ c0 c1 n0 hg ho]
          exact h2
    · rw [inningsUpTo_exit rand (K + 1) c0 n0 hg] at h
      simp only [Option.some.injEq, Prod.mk.injEq] at h
      obtain ⟨rfl, rfl⟩ := h
      exact ⟨fun k hk => by omega, by simp [inningsUpTo]⟩

/-! ## Batting order and delivery accounting -/

theorem ballBody_untouched (rand : Nat → Nat) (c c' : Crease) (hc : InOrder c)
    (hu : Untouched c) (h : ballBody rand c = some c') : Untouched c' := by
  obtain ⟨_, _, _, hg⟩ := hc
  refine ballBody_elim Untouched h ?_ ?_ ?_
  · intro striker _ _ hw i p hp hi
    simp only at hw hp hi
    obtain ⟨_, h1, _, _⟩ := hg (by omega)
    rw [List.getElem?_set_ne (by omega)] at hp
    exact hu (by omega) i p hp (by omega)
  · intro striker _ _ hw i p hp hi
    simp only at hw hp hi
    obtain ⟨_, h1, _, _⟩ := hg hw
    rw [List.getElem?_set_ne (by omega)] at hp
    exact hu hw i p hp hi
  · intro striker _ _ _ hw i p hp hi
    simp only at hw hp hi
    obtain ⟨_, h1, _, _⟩ := hg hw
    rw [List.getElem?_set_ne (by omega)] at hp
    exact hu hw i p hp hi

theorem ballBody_inOrder_untouched (rand : Nat → Nat) (c c' : Crease)
    (hc : InOrder c ∧ Untouched c) (h : ballBody rand c = some c') :
    InOrder c' ∧ Untouched c' :=
  ⟨ballBody_inOrder rand c c' hc.1 h, ballBody_untouched rand c c' hc.1 hc.2 h⟩

theorem swapEnds_inOrder_untouched (c : Crease) (hc : InOrder c ∧ Untouched c) :
    InOrder (swapEnds c) ∧ Untouched (swapEnds c) :=
  ⟨swapEnds_inOrder c hc.1, hc.2⟩

theorem openers_inOrder_untouched (name : String) (drawn : Nat) :
    InOrder (openers (createTeam name) drawn) ∧ Untouched (openers (createTeam name) drawn) := by
  refine ⟨openers_inOrder name drawn, ?_⟩
  intro _ i p hp _
  have := createPlayers_fresh 11 1 i p hp
  exact ⟨this.1, this.2.1⟩

/-- Players beyond position `wickets + 1` are as `createTeam` made them. -/
theorem inOrder_untouched_fresh (c : Crease) (hc : InOrder c ∧ Untouched c)
    (hw : c.team.wickets ≤ 9) (i : Nat) (p : Player) (hp : c.team.players[i]? = some p)
    (hi : c.team.wickets + 1 < (i : Int)) : p.runs = 0 ∧ p.balls = 0 ∧ p.out = false := by
  obtain ⟨⟨_, _, _, hg⟩, hu⟩ := hc
  obtain ⟨_, _, _, h3⟩ := hg (by omega)
  obtain ⟨hr, hb⟩ := hu (by omega) i p hp hi
  refine ⟨hr, hb, ?_⟩
  cases ho : p.out with
  | false => rfl
  | true =>
    have := ((h3 i p hp).mp ho).1
    omega

/-- A dismissal that leaves fewer than ten wickets puts the next player in
batting order on strike. -/
theorem wicket_brings_next (rand : Nat → Nat) (c c' : Crease) (hc : InOrder c)
    (h : ballBody rand c = some c') (hd : rand c.drawn % 7 = 0) (hk : c'.team.wickets ≤ 9) :
    c'.team.wickets = c.team.wickets + 1 ∧ (c'.strikerIdx : Int) = c'.team.wickets + 1 := by
  have hc' := ballBody_inOrder rand c c' hc h
  obtain ⟨hlen, _, hr, hg⟩ := hc
  obtain ⟨striker, hs⟩ : ∃ p, c.team.players[c.strikerIdx]? = some p :=
    ⟨c.team.players.get ⟨c.strikerIdx, hr.1⟩, by simp [hr.1]⟩
  rw [ballBody_wicket rand c striker hs hd] at h
  simp only [Option.some.injEq] at h
  subst h
  simp only at hk hc' ⊢
  refine ⟨trivial, ?_⟩
  obtain ⟨_, _, _, hg'⟩ := hc'
  obtain ⟨_, h1, h2, h3⟩ := hg (by omega)
  obtain ⟨_, h1', _, h3'⟩ := hg' (by simp only; omega)
  simp only at h1' h3'
  obtain ⟨q, hq⟩ : ∃ q, c.team.players[(c.team.wickets + 2).toNat]? = some q :=
    ⟨c.team.players.get ⟨(c.team.wickets + 2).toNat, by omega⟩, by
      simp only [List.get_eq_getElem]
      exact List.getElem?_eq_getElem _⟩
  have hqout : q.out = false := by
    cases hqo : q.out with
    | false => rfl
    | true =>
      have := ((h3 _ q hq).mp hqo).1
      omega
  have hq' : (c.team.players.set c.strikerIdx { striker with out := true })[
      (c.team.wickets + 2).toNat]? = some q := by
    rw [List.getElem?_set_ne (by omega)]; exact hq
  have hiff := h3' _ q hq'
  have hnot : ¬ (((c.team.wickets + 2).toNat : Int) ≤ c.team.wickets + 1 + 1 ∧
      (c.team.wickets + 2).toNat ≠
        findNext (c.team.players.set c.strikerIdx { striker with out := true })
          c.strikerIdx c.nonStrikerIdx ∧
      (c.team.wickets + 2).toNat ≠ c.nonStrikerIdx) := by
    intro hcon
    rw [hiff.mpr hcon] at hqout
    cases hqout
  by_contra hne
  apply hnot
  refine ⟨by omega, ?_, by omega⟩
  intro heq
  apply hne
  rw [← heq]
  omega

theorem sumBalls_set :
    ∀ (l : List Player) (i : Nat) (p q : Player), l[i]? = some p →
      sumBalls (l.set i q) = sumBalls l - p.balls + q.balls := by
  intro l
  induction l with
  | nil => intro i p q h; simp at h
  | cons a l ih =>
    intro i p q h
    cases i with
    | zero =>
      simp only [List.getElem?_cons_zero, Option.some.injEq] at h
      subst h
      simp only [sumBalls, List.set_cons_zero, List.map_cons, List.sum_cons]
      omega
    | succ i =>
      simp only [List.getElem?_cons_succ] at h
      have := ih i p q h
      simp only [sumBalls, List.set_cons_succ, List.map_cons, List.sum_cons] at this ⊢
      omega

/-- A delivery adds one ball faced or one wicket, never both. -/
theorem ballBody_ball_or_wicket (rand : Nat → Nat) (c c' : Crease)
    (h : ballBody rand c = some c') :
    (sumBalls c'.team.players = sumBalls c.team.players + 1 ∧
        c'.team.wickets = c.team.wickets) ∨
      (sumBalls c'.team.players = sumBalls c.team.players ∧
        c'.team.wickets = c.team.wickets + 1) := by
  refine ballBody_elim (fun x =>
    (sumBalls x.team.players = sumBalls c.team.players + 1 ∧
        x.team.wickets = c.team.wickets) ∨
      (sumBalls x.team.players = sumBalls c.team.players ∧
        x.team.wickets = c.team.wickets + 1)) h ?_ ?_ ?_
  · intro striker hs _
    right
    simp only
    rw [sumBalls_set _ _ striker _ hs]
    simp only
    exact ⟨by omega, trivial⟩
  · intro striker hs _
    left
    simp only
    rw [sumBalls_set _ _ striker _ hs]
    simp only
    exact ⟨by omega, trivial⟩
  · intro striker hs _ _
    left
    simp only
    rw [sumBalls_set _ _ striker _ hs]
    simp only
    exact ⟨by omega, trivial⟩

theorem ballBody_accounted (rand : Nat → Nat) (d0 : Nat) (c c' : Crease)
    (hc : Accounted d0 c) (h : ballBody rand c = some c') : Accounted d0 c' := by
  have hd := ballBody_drawn rand c c' h
  unfold Accounted at hc ⊢
  rcases ballBody_ball_or_wicket rand c c' h with ⟨h1, h2⟩ | ⟨h1, h2⟩
  · rw [h1, h2, hd]; push_cast; omega
  · rw [h1, h2, hd]; push_cast; omega

theorem openers_accounted (name : String) (drawn : Nat) :
    Accounted drawn (openers (createTeam name) drawn) := by
  have h0 : sumBalls (createTeam name).players = 0 := rfl
  simp only [Accounted, openers]
  rw [h0]
  simp [createTeam]

/-! ## `cricket.c`: one delivery and the delivery loop -/

namespace Match

/-- The roster accesses of an innings cannot fail: the wicket count is within
`0..size` and the bowling roster is not empty. -/
theorem playerAt_of_inHand (t : Team) (h : wicketsInHand t = true) :
    ∃ p, playerAt t.players t.wicketsLost = some p ∧
      t.players[t.wicketsLost.toNat]? = some p ∧ t.wicketsLost.toNat < t.players.length := by
  simp only [wicketsInHand, Bool.and_eq_true, decide_eq_true_eq] at h
  have hlt : t.wicketsLost.toNat < t.players.length := by omega
  refine ⟨t.players.get ⟨t.wicketsLost.toNat, hlt⟩, ?_, by simp, hlt⟩
  simp only [playerAt]
  rw [if_neg (by omega)]
  simp

theorem delivery_wicket (rand : Nat → Nat) (takeWicket : Player → Player) (s : Innings)
    (hw : rand (s.drawn + 1) % 100 < 15) (hg : wicketsInHand s.batting = true)
    (hb : s.bowling.players ≠ []) :
    ∃ bowler, s.bowling.players[rand (s.drawn + 2) % s.bowling.players.length]? = some bowler ∧
      delivery rand takeWicket s = some { s with
        batting := s.batting.loseWicket
        bowling := { s.bowling with
          players := s.bowling.players.set (rand (s.drawn + 2) % s.bowling.players.length)
            (takeWicket bowler) }
        drawn := s.drawn + 3 } := by
  have hlen : 0 < s.bowling.players.length := List.length_pos.mpr hb
  have hlt : rand (s.drawn + 2) % s.bowling.players.length < s.bowling.players.length :=
    Nat.mod_lt _ hlen
  obtain ⟨p, hp, _, _⟩ := playerAt_of_inHand s.batting hg
  have hp2 : playerAt s.batting.loseWicket.players (s.batting.loseWicket.wicketsLost - 1) =
      some p := by
    simp only [Team.loseWicket]
    rw [show s.batting.wicketsLost + 1 - 1 = s.batting.wicketsLost by omega]
    exact hp
  refine ⟨s.bowling.players.get ⟨_, hlt⟩, by simp, ?_⟩
  have hb0 : ¬ s.bowling.players.length = 0 := by omega
  have hbow : s.bowling.players[rand (s.drawn + 2) % s.bowling.players.length]? =
      some (s.bowling.players.get ⟨_, hlt⟩) := by simp
  simp only [delivery, if_pos hw, if_neg hb0, hbow, hp2]

theorem delivery_run (rand : Nat → Nat) (takeWicket : Player → Player) (s : Innings)
    (hw : ¬ rand (s.drawn + 1) % 100 < 15) (hg : wicketsInHand s.batting = true) :
    ∃ p, s.batting.players[s.batting.wicketsLost.toNat]? = some p ∧
      delivery rand takeWicket s = some { s with
        batting := { s.batting with
          players := s.batting.players.set s.batting.wicketsLost.toNat
            (p.scoreRun ((rand s.drawn % 7 : Nat) : Int))
          totalRuns := s.batting.totalRuns + ((rand s.drawn % 7 : Nat) : Int) }
        drawn := s.drawn + 2 } := by
  obtain ⟨p, hp, hp', _⟩ := playerAt_of_inHand s.batting hg
  refine ⟨p, hp', ?_⟩
  have hp2 : playerAt (s.batting.addRuns ((rand s.drawn % 7 : Nat) : Int)).players
      (s.batting.addRuns ((rand s.drawn % 7 : Nat) : Int)).wicketsLost = some p := hp
  simp only [delivery, if_neg hw, hp2]
  rfl

theorem delivery_inBounds (rand : Nat → Nat) (takeWicket : Player → Player) (n : Nat)
    (s : Innings) (hs : InBounds n s) (hg : wicketsInHand s.batting = true) :
    ∃ s', delivery rand takeWicket s = some s' ∧ InBounds n s' ∧ s'.i = s.i := by
  obtain ⟨h1, h2, h3, h4⟩ := hs
  have hg' := hg
  simp only [wicketsInHand, Bool.and_eq_true, decide_eq_true_eq] at hg'
  by_cases hw : rand (s.drawn + 1) % 100 < 15
  · obtain ⟨bowler, _, hd⟩ := delivery_wicket rand takeWicket s hw hg h4
    refine ⟨_, hd, ⟨h1, ?_, ?_, ?_⟩, rfl⟩
    · simp only [Team.loseWicket]; omega
    · simp only [Team.loseWicket]; omega
    · intro hnil
      have := congrArg List.length hnil
      simp only [List.length_set, List.length_nil] at this
      exact h4 (List.length_eq_zero.mp this)
  · obtain ⟨p, _, hd⟩ := delivery_run rand takeWicket s hw hg
    exact ⟨_, hd, ⟨by simpa using h1, h2, h3, h4⟩, rfl⟩

theorem ballLoop_inBounds (rand : Nat → Nat) (takeWicket : Player → Player) (n : Nat) :
    ∀ (k : Nat) (s : Innings), InBounds n s →
      ∃ s', ballLoop rand takeWicket k s = some s' ∧ InBounds n s' ∧ s'.i ≤ s.i + k := by
  intro k
  induction k with
  | zero => intro s hs; exact ⟨s, rfl, hs, by omega⟩
  | succ k ih =>
    intro s hs
    by_cases hg : wicketsInHand s.batting = true
    · obtain ⟨s1, h1, hb1, hi1⟩ := delivery_inBounds rand takeWicket n s hs hg
      obtain ⟨s2, h2, hb2, hi2⟩ := ih { s1 with i := s1.i + 1 } hb1
      refine ⟨s2, by simp [ballLoop, hg, h1, h2], hb2, ?_⟩
      simp only at hi2
      omega
    · exact ⟨s, by simp [ballLoop, hg], hs, by omega⟩

/-- Once the loop condition fails the loop does nothing more. -/
theorem ballLoop_stop (rand : Nat → Nat) (takeWicket : Player → Player) (k : Nat)
    (s : Innings) (hg : ¬ wicketsInHand s.batting = true) :
    ballLoop rand takeWicket k s = some s := by
  cases k with
  | zero => rfl
  | succ k => simp [ballLoop, hg]

/-- The first statement of `playInnings` is undefined, so the function yields
no result, whatever its arguments. -/
theorem playInnings_none (gen : Nat → Nat → Nat) (now : Nat) (takeWicket : Player → Player)
    (overs : Int) (batting bowling : Team) :
    playInnings gen now takeWicket overs batting bowling = none := by
  simp [playInnings, timeCall]

/-- The delivery loop on the draws 4, 50; 1, 50; 0, 5, 0 (run draw, wicket
chance, bowler draw): a four, a single, a dismissal. -/
theorem ballLoop_three_deliveries :
    (ballLoop (drawsOf [4, 50, 1, 50, 0, 5, 0]) id 1 (kickoff warriors knights)).map
        (fun s => (s.batting.totalRuns, s.batting.wicketsLost, s.drawn)) = some (4, 0, 2) ∧
    (ballLoop (drawsOf [4, 50, 1, 50, 0, 5, 0]) id 2 (kickoff warriors knights)).map
        (fun s => (s.batting.totalRuns, s.batting.wicketsLost, s.drawn)) = some (5, 0, 4) ∧
    (ballLoop (drawsOf [4, 50, 1, 50, 0, 5, 0]) id 3 (kickoff warriors knights)).map
        (fun s => (s.batting.totalRuns, s.batting.wicketsLost, s.drawn)) = some (5, 1, 7) := by
  decide

theorem kickoff_inBounds (batting bowling : Team) (h0 : batting.wicketsLost = 0)
    (hb : bowling.players ≠ []) : InBounds batting.players.length (kickoff batting bowling) := by
  refine ⟨rfl, ?_, ?_, hb⟩
  · simp [kickoff, h0]
  · simp [kickoff, h0]

end Match

/-! ## Claims -/

/-- C1: for every stream of random draws, in an innings of a team built by
`createTeam`, after every delivery (every iteration of the ball loop, in every
over that is bowled) `team.totalRuns` equals the sum of `players[i].runs`. -/
theorem totalRuns_eq_sum_after_every_delivery (rand : Nat → Nat) (name : String)
    (drawn k j : Nat) (c : Crease)
    (h : afterBall rand (createTeam name) drawn k j = some c) :
    c.team.totalRuns = sumRuns c.team.players :=
  afterBall_preserves Tally (ballBody_tally rand) swapEnds_tally (createTeam name) drawn k j c
    (openers_tally name drawn) h

theorem totalRuns_eq_sum_after_every_delivery_witness :
    afterBall countUp (createTeam "Red Warriors") 0 0 3 = some sampleCrease ∧
    sampleCrease.team.totalRuns = sumRuns sampleCrease.team.players :=
  ⟨by decide,
    totalRuns_eq_sum_after_every_delivery countUp "Red Warriors" 0 0 3 sampleCrease (by decide)⟩

/-- C2 (the code departs from the claim): with every draw a dismissal, the
eleventh delivery of the innings (over 2, ball 5) is bowled at the already
dismissed player at index 10; `team.wickets` becomes 11 while only 10 players
have their `out` flag set. -/
theorem wickets_exceed_outCount_after_all_out :
    afterBall allOutDraws (createTeam "Red Warriors") 0 1 5 = some elevenWickets ∧
    elevenWickets.team.wickets = 11 ∧ outCount elevenWickets.team.players = 10 := by
  decide

/-- C3: for every stream of random draws, in an innings of the eleven-player
team of `createTeam` (openers at indices 0 and 1), at every point with
`team.wickets < 10` — before and after each delivery of an over, and after the
end-of-over swap of every iteration of the innings loop — the two indices are
distinct and each is a valid index of a player whose `out` flag is false. -/
theorem striker_nonStriker_distinct_not_out (rand : Nat → Nat) (name : String) (drawn : Nat) :
    (∀ (k j : Nat) (c : Crease),
      afterBall rand (createTeam name) drawn k j = some c → c.team.wickets < 10 →
        c.strikerIdx ≠ c.nonStrikerIdx ∧ NotOutAt c.team.players c.strikerIdx ∧
          NotOutAt c.team.players c.nonStrikerIdx) ∧
    (∀ (k : Nat) (c : Crease) (n : Nat),
      inningsUpTo rand k (openers (createTeam name) drawn) 1 = some (c, n) →
        c.team.wickets < 10 →
        c.strikerIdx ≠ c.nonStrikerIdx ∧ NotOutAt c.team.players c.strikerIdx ∧
          NotOutAt c.team.players c.nonStrikerIdx) := by
  constructor
  · intro k j c h hw
    exact inOrder_notOut c
      (afterBall_preserves InOrder (ballBody_inOrder rand) swapEnds_inOrder
        (createTeam name) drawn k j c (openers_inOrder name drawn) h) hw
  · intro k c n h hw
    exact inOrder_notOut c
      (inningsUpTo_preserves InOrder (ballBody_inOrder rand) swapEnds_inOrder k _ 1 (c, n)
        (openers_inOrder name drawn) h) hw

theorem striker_nonStriker_distinct_not_out_witness :
    afterBall countUp (createTeam "Red Warriors") 0 0 3 = some sampleCrease ∧
    sampleCrease.team.wickets < 10 ∧
    (sampleCrease.strikerIdx ≠ sampleCrease.nonStrikerIdx ∧
      NotOutAt sampleCrease.team.players sampleCrease.strikerIdx ∧
      NotOutAt sampleCrease.team.players sampleCrease.nonStrikerIdx) :=
  ⟨by decide, by decide,
    (striker_nonStriker_distinct_not_out countUp "Red Warriors" 0).1 0 3 sampleCrease
      (by decide) (by decide)⟩

/-- C4 (the code departs from the claim): with every draw a dismissal, the
second over starts at 6 wickets, the tenth wicket falls on its fourth delivery,
and the ball loop still bowls deliveries five and six: `simulateOver` returns
after six `rand()` calls with `team.wickets = 12`. -/
theorem over_continues_after_all_out :
    (afterBall allOutDraws (createTeam "Red Warriors") 0 1 0).map
        (fun c => (c.team.wickets, c.drawn)) = some (6, 6) ∧
    (afterBall allOutDraws (createTeam "Red Warriors") 0 1 4).map
        (fun c => (c.team.wickets, c.drawn)) = some (10, 10) ∧
    (afterBall allOutDraws (createTeam "Red Warriors") 0 1 5).map
        (fun c => (c.team.wickets, c.drawn)) = some (11, 11) ∧
    ((afterBall allOutDraws (createTeam "Red Warriors") 0 1 0).bind
        (fun c => simulateOver allOutDraws c 2)).map
        (fun c => (c.team.wickets, c.drawn)) = some (12, 12) := by
  decide

/-- C5 (the code departs from the claim): with every draw a dismissal,
`simulateInnings` on the eleven-player team of `createTeam` returns after two
overs with `team.wickets = 12`, outside the range 0..10. -/
theorem wickets_reach_twelve :
    (simulateInnings allOutDraws (createTeam "Red Warriors") 0).map
        (fun r => (r.1.team.wickets, r.1.team.players.length, r.2)) = some (12, 11, 3) := by
  rw [simulateInnings_eq_inningsUpTo]
  decide

/-- C6: when a delivery is a dismissal (`rand() % 7 == 0`) the delivery
returns normally; the striker's record only has its `out` flag set (runs,
balls and name as before); `team.wickets` grows by exactly 1; `team.totalRuns`,
`nonStrikerIdx`, the roster length and every other player's record are
unchanged; and the new `strikerIdx` is the least index that passes the test
"not out, not the old striker, not the non-striker", or the old `strikerIdx`
when no index passes it. -/
theorem dismissal_effect (rand : Nat → Nat) (c : Crease) (striker : Player)
    (hs : c.team.players[c.strikerIdx]? = some striker) (hd : rand c.drawn % 7 = 0) :
    ∃ c', ballBody rand c = some c' ∧
      c'.team.players[c.strikerIdx]? = some { striker with out := true } ∧
      c'.team.wickets = c.team.wickets + 1 ∧
      c'.team.totalRuns = c.team.totalRuns ∧
      c'.team.name = c.team.name ∧
      c'.nonStrikerIdx = c.nonStrikerIdx ∧
      c'.team.players.length = c.team.players.length ∧
      (∀ i, i ≠ c.strikerIdx → c'.team.players[i]? = c.team.players[i]?) ∧
      (∀ i p, c'.team.players[i]? = some p → Eligible c.strikerIdx c.nonStrikerIdx i p →
        c'.strikerIdx ≤ i ∧
        ∃ q, c'.team.players[c'.strikerIdx]? = some q ∧
          Eligible c.strikerIdx c.nonStrikerIdx c'.strikerIdx q) ∧
      ((∀ i p, c'.team.players[i]? = some p → ¬ Eligible c.strikerIdx c.nonStrikerIdx i p) →
        c'.strikerIdx = c.strikerIdx) := by
  have hlt : c.strikerIdx < c.team.players.length := (List.getElem?_eq_some.mp hs).1
  refine ⟨_, ballBody_wicket rand c striker hs hd, ?_, rfl, rfl, rfl, rfl, ?_, ?_, ?_, ?_⟩
  · exact List.getElem?_set_self hlt
  · simp
  · intro i hi
    exact List.getElem?_set_ne (fun h => hi h.symm)
  · intro i p hp he
    simp only at hp ⊢
    rcases findNext_spec (c.team.players.set c.strikerIdx { striker with out := true })
      c.strikerIdx c.nonStrikerIdx with ⟨hA, _⟩ | ⟨j, q, hj, hq, hmin, hres⟩
    · exact absurd he (hA i p hp)
    · rw [hres]
      refine ⟨?_, q, hj, hq⟩
      by_contra hlt'
      exact hmin i (by omega) p hp he
  · intro hnone
    simp only at hnone ⊢
    rcases findNext_spec (c.team.players.set c.strikerIdx { striker with out := true })
      c.strikerIdx c.nonStrikerIdx with ⟨_, hres⟩ | ⟨j, q, hj, hq, _, _⟩
    · exact hres
    · exact absurd hq (hnone j q hj)

theorem dismissal_effect_witness :
    (openers (createTeam "Red Warriors") 0).team.players[
        (openers (createTeam "Red Warriors") 0).strikerIdx]? =
      some { name := "Player1", runs := 0, balls := 0, out := false } ∧
    allOutDraws (openers (createTeam "Red Warriors") 0).drawn % 7 = 0 ∧
    ∃ c', ballBody allOutDraws (openers (createTeam "Red Warriors") 0) = some c' ∧
      c'.team.wickets = 1 ∧ c'.team.totalRuns = 0 ∧ c'.nonStrikerIdx = 1 ∧
      c'.team.players[0]? = some { name := "Player1", runs := 0, balls := 0, out := true } := by
  refine ⟨by decide, by decide, ?_⟩
  obtain ⟨c', h, h1, h2, h3, _, h5, _⟩ :=
    dismissal_effect allOutDraws (openers (createTeam "Red Warriors") 0)
      { name := "Player1", runs := 0, balls := 0, out := false } (by decide) (by decide)
  exact ⟨c', h, h2, h3, h5, h1⟩

/-- C7: when a delivery is scored (`rand() % 7` is a run value `r` in 1..6)
the delivery returns normally and `simulateBall` returns `r`; the striker's
runs grow by exactly `r` and the striker's balls by exactly 1 (name and `out`
flag as before); `team.totalRuns` grows by exactly `r`; `team.wickets`, every
`out` flag, every player name, the roster length and the record of every
player other than the striker are unchanged. -/
theorem scored_delivery_effect (rand : Nat → Nat) (c : Crease) (striker : Player)
    (hs : c.team.players[c.strikerIdx]? = some striker) (hd : rand c.drawn % 7 ≠ 0) :
    ∃ c', ballBody rand c = some c' ∧
      (simulateBall (rand c.drawn) striker).1 = ((rand c.drawn % 7 : Nat) : Int) ∧
      1 ≤ rand c.drawn % 7 ∧ rand c.drawn % 7 ≤ 6 ∧
      c'.team.players[c.strikerIdx]? =
        some { striker with runs := striker.runs + ((rand c.drawn % 7 : Nat) : Int)
                            balls := striker.balls + 1 } ∧
      c'.team.totalRuns = c.team.totalRuns + ((rand c.drawn % 7 : Nat) : Int) ∧
      c'.team.wickets = c.team.wickets ∧
      c'.team.name = c.team.name ∧
      c'.team.players.map (fun p => p.out) = c.team.players.map (fun p => p.out) ∧
      c'.team.players.map (fun p => p.name) = c.team.players.map (fun p => p.name) ∧
      c'.team.players.length = c.team.players.length ∧
      (∀ i, i ≠ c.strikerIdx → c'.team.players[i]? = c.team.players[i]?) := by
  have hlt : c.strikerIdx < c.team.players.length := (List.getElem?_eq_some.mp hs).1
  obtain ⟨c', h, hteam, _, _⟩ := ballBody_scored rand c striker hs hd
  have hret : (simulateBall (rand c.drawn) striker).1 = ((rand c.drawn % 7 : Nat) : Int) := by
    have h1 : ((rand c.drawn % 7 : Nat) : Int) ≠ 0 := by omega
    simp only [simulateBall]
    simp only [Nat.cast_ofNat] at h1 ⊢
    rw [if_neg h1]
  refine ⟨c', h, hret, by omega, by omega, ?_, ?_, ?_, ?_, ?_, ?_, ?_, ?_⟩
  · rw [hteam]; exact List.getElem?_set_self hlt
  · rw [hteam]
  · rw [hteam]
  · rw [hteam]
  · rw [hteam]; exact map_set_same _ _ _ striker _ hs rfl
  · rw [hteam]; exact map_set_same _ _ _ striker _ hs rfl
  · rw [hteam]; simp
  · intro i hi
    rw [hteam]
    exact List.getElem?_set_ne (fun h => hi h.symm)

theorem scored_delivery_effect_witness :
    sampleCrease.team.players[sampleCrease.strikerIdx]? =
      some { name := "Player2", runs := 2, balls := 1, out := false } ∧
    countUp sampleCrease.drawn % 7 ≠ 0 ∧
    ∃ c', ballBody countUp sampleCrease = some c' ∧
      c'.team.players[1]? = some { name := "Player2", runs := 5, balls := 2, out := false } ∧
      c'.team.totalRuns = 6 ∧ c'.team.wickets = 1 := by
  refine ⟨by decide, by decide, ?_⟩
  obtain ⟨c', h, _, _, _, h1, h2, h3, _⟩ :=
    scored_delivery_effect countUp sampleCrease
      { name := "Player2", runs := 2, balls := 1, out := false } (by decide) (by decide)
  exact ⟨c', h, h1, h2, h3⟩

/-- C8: a delivery exchanges `strikerIdx` and `nonStrikerIdx` when it is scored
with an odd run value, leaves both unchanged when it is scored with an even
run value, and leaves `nonStrikerIdx` unchanged when it is a dismissal; with
the two indices distinct (as they are throughout an innings) the exchange
happens if and only if the delivery is scored with an odd run value, and a
dismissal never puts the old non-striker on strike. -/
theorem strike_rotates_iff_odd (rand : Nat → Nat) (c : Crease) (striker : Player)
    (hs : c.team.players[c.strikerIdx]? = some striker) :
    ∃ c', ballBody rand c = some c' ∧
      (rand c.drawn % 7 ≠ 0 → rand c.drawn % 7 % 2 = 1 →
        c'.strikerIdx = c.nonStrikerIdx ∧ c'.nonStrikerIdx = c.strikerIdx) ∧
      (rand c.drawn % 7 ≠ 0 → rand c.drawn % 7 % 2 = 0 →
        c'.strikerIdx = c.strikerIdx ∧ c'.nonStrikerIdx = c.nonStrikerIdx) ∧
      (rand c.drawn % 7 = 0 → c'.nonStrikerIdx = c.nonStrikerIdx) ∧
      (c.strikerIdx ≠ c.nonStrikerIdx →
        ((c'.strikerIdx = c.nonStrikerIdx ∧ c'.nonStrikerIdx = c.strikerIdx) ↔
          (rand c.drawn % 7 ≠ 0 ∧ rand c.drawn % 7 % 2 = 1)) ∧
        (rand c.drawn % 7 = 0 → c'.strikerIdx ≠ c.nonStrikerIdx)) := by
  by_cases hd : rand c.drawn % 7 = 0
  · refine ⟨_, ballBody_wicket rand c striker hs hd, ?_, ?_, ?_, ?_⟩
    · intro h; exact absurd hd h
    · intro h; exact absurd hd h
    · intro _; rfl
    · intro hne
      have hnext := findNext_ne (c.team.players.set c.strikerIdx { striker with out := true })
        c.strikerIdx c.nonStrikerIdx hne
      refine ⟨⟨fun h => absurd h.1 hnext, fun h => absurd hd h.1⟩, fun _ => hnext⟩
  · obtain ⟨c', h, _, _, hpar⟩ := ballBody_scored rand c striker hs hd
    refine ⟨c', h, ?_, ?_, ?_, ?_⟩
    · intro _ ho
      rcases hpar with ⟨_, h1, h2⟩ | ⟨he, _, _⟩
      · exact ⟨h1, h2⟩
      · omega
    · intro _ he
      rcases hpar with ⟨ho, _, _⟩ | ⟨_, h1, h2⟩
      · omega
      · exact ⟨h1, h2⟩
    · intro h0; exact absurd h0 hd
    · intro hne
      refine ⟨?_, fun h0 => absurd h0 hd⟩
      rcases hpar with ⟨ho, h1, h2⟩ | ⟨he, h1, h2⟩
      · exact ⟨fun _ => ⟨hd, ho⟩, fun _ => ⟨h1, h2⟩⟩
      · constructor
        · intro hsw
          rw [h1] at hsw
          exact absurd hsw.1 hne
        · intro hodd
          omega

theorem strike_rotates_iff_odd_witness :
    sampleCrease.team.players[sampleCrease.strikerIdx]? =
      some { name := "Player2", runs := 2, balls := 1, out := false } ∧
    sampleCrease.strikerIdx ≠ sampleCrease.nonStrikerIdx ∧
    ∃ c', ballBody countUp sampleCrease = some c' ∧
      c'.strikerIdx = 2 ∧ c'.nonStrikerIdx = 1 := by
  refine ⟨by decide, by decide, ?_⟩
  obtain ⟨c', h, _, _, _, h4⟩ :=
    strike_rotates_iff_odd countUp sampleCrease
      { name := "Player2", runs := 2, balls := 1, out := false } (by decide)
  exact ⟨c', h, (h4 (by decide)).1.mpr ⟨by decide, by decide⟩⟩

/-- C9: from every state with both indices in range and for every draw stream,
`simulateOver` returns, and its result is the state `b` left by the sixth (last)
delivery with `strikerIdx` and `nonStrikerIdx` exchanged once, whatever the
deliveries were; and in `simulateInnings` the call of `simulateOver` made after
`k` completed iterations receives over number `k + 1`, after which the loop
variable is `k + 2`. -/
theorem over_ends_with_one_swap (rand : Nat → Nat) :
    (∀ (c : Crease) (n : Nat), InRange c →
      ∃ b c', bowl rand 6 c = some b ∧ simulateOver rand c n = some c' ∧
        c'.strikerIdx = b.nonStrikerIdx ∧ c'.nonStrikerIdx = b.strikerIdx ∧
        c'.team = b.team ∧ c'.drawn = b.drawn ∧ b.drawn = c.drawn + 6) ∧
    (∀ (team : Team) (drawn k : Nat) (c : Crease) (n : Nat),
      inningsUpTo rand k (openers team drawn) 1 = some (c, n) →
        inningsGuard c n = true →
        n = k + 1 ∧
        ∀ c', simulateOver rand c n = some c' →
          inningsUpTo rand (k + 1) (openers team drawn) 1 = some (c', k + 2)) := by
  constructor
  · intro c n hc
    obtain ⟨b, hb⟩ := bowl_total rand 6 c hc
    exact ⟨b, swapEnds b, hb, by simp [simulateOver, hb], rfl, rfl, rfl, rfl,
      bowl_drawn rand 6 c b hb⟩
  · intro team drawn k c n h hg
    have hn : n = k + 1 := by
      have := (inningsUpTo_overNumber rand k _ 1 c n h).2.2.1 hg
      omega
    refine ⟨hn, ?_⟩
    intro c' ho
    have := inningsUpTo_snoc rand k _ 1 c c' n h hg ho
    rw [this, hn]

theorem over_ends_with_one_swap_witness :
    InRange sampleCrease ∧
    inningsUpTo countUp 1 (openers (createTeam "Red Warriors") 0) 1 =
      some (afterFirstOver, 2) ∧
    inningsGuard afterFirstOver 2 = true ∧
    (∃ b c', bowl countUp 6 sampleCrease = some b ∧
      simulateOver countUp sampleCrease 1 = some c' ∧
      c'.strikerIdx = b.nonStrikerIdx ∧ c'.nonStrikerIdx = b.strikerIdx) ∧
    2 = 1 + 1 := by
  have hr : InRange sampleCrease := by
    constructor <;> decide
  refine ⟨hr, by decide, by decide, ?_, ?_⟩
  · obtain ⟨b, c', h1, h2, h3, h4, _⟩ :=
      (over_ends_with_one_swap countUp).1 sampleCrease 1 hr
    exact ⟨b, c', h1, h2, h3, h4⟩
  · exact ((over_ends_with_one_swap countUp).2 (createTeam "Red Warriors") 0 1 afterFirstOver 2
      (by decide) (by decide)).1

/-- C10: for every stream of random draws `simulateInnings` on a team of
`createTeam` returns. With `n` the over number on return, `n - 1` overs were
bowled (six draws each) and `n - 1 ≤ 50`; every call of `simulateOver` (the one
after `k` iterations, `k < n - 1`) was made with `team.wickets < 10` and over
number `k + 1 ≤ 50`; and on return `team.wickets ≥ 10` or exactly 50 overs have
been bowled. -/
theorem simulateInnings_terminates (rand : Nat → Nat) (name : String) (drawn : Nat) :
    ∃ c n, simulateInnings rand (createTeam name) drawn = some (c, n) ∧
      1 ≤ n ∧ n - 1 ≤ 50 ∧ (10 ≤ c.team.wickets ∨ n - 1 = 50) ∧
      c.drawn = drawn + 6 * (n - 1) ∧
      inningsUpTo rand (n - 1) (openers (createTeam name) drawn) 1 = some (c, n) ∧
      ∀ k, k < n - 1 →
        ∃ ck, inningsUpTo rand k (openers (createTeam name) drawn) 1 = some (ck, k + 1) ∧
          ck.team.wickets < 10 ∧ k + 1 ≤ 50 := by
  obtain ⟨⟨c, n⟩, h⟩ := inningsUpTo_total rand 50 (openers (createTeam name) drawn) 1
    (openers_inRange name drawn)
  obtain ⟨h1, h2, h3, h4⟩ := inningsUpTo_overNumber rand 50 _ 1 c n h
  obtain ⟨h5, h6⟩ := inningsUpTo_calls rand 50 _ 1 c n h
  have hexit : 10 ≤ c.team.wickets ∨ n - 1 = 50 := by
    by_cases hg : inningsGuard c n = true
    · have := h3 hg
      have := (inningsGuard_iff c n).mp hg
      omega
    · rw [inningsGuard_iff] at hg
      omega
  refine ⟨c, n, by rw [simulateInnings_eq_inningsUpTo]; exact h, h1, by omega, hexit, ?_, h6, ?_⟩
  · simpa [openers] using h4
  · intro k hk
    obtain ⟨ck, hck, hgk⟩ := h5 k hk
    rw [Nat.add_comm 1 k] at hck hgk
    have := (inningsGuard_iff ck (k + 1)).mp hgk
    exact ⟨ck, hck, this.1, this.2⟩

/-- C11 (as stated, refuted): the spec's decision for wicket-chance 50 and run
value 0 is a dot ball, a scored delivery with value 0; no draw makes
`simulateBall` return 0. The draw 21 is a dismissal although `21 % 100` is not
below 15, and the draw 1 is scored although `1 % 100` is below 15. -/
theorem simulateBall_has_no_dot_ball :
    specBall 50 0 player1 = (0, { player1 with balls := 1 }) ∧
    (¬ ∃ d : Nat, (simulateBall d player1).1 = 0) ∧
    (simulateBall 21 player1 = (-1, { player1 with out := true }) ∧ ¬ 21 % 100 < 15) ∧
    (simulateBall 1 player1 = (1, { player1 with runs := 1, balls := 1 }) ∧ 1 % 100 < 15) := by
  refine ⟨by decide, ?_, ⟨by decide, by decide⟩, ⟨by decide, by decide⟩⟩
  rintro ⟨d, hd⟩
  simp only [simulateBall] at hd
  split at hd
  · simp at hd
  · rename_i h
    exact h hd

/-- C11 (amended): `simulateBall` decides a delivery from its single draw `d`:
the delivery is a dismissal (result `-1`, `out` set) exactly when `d % 7 = 0`;
otherwise the run value `d % 7`, one of 1..6, is credited to the player, one
ball is counted and `out` is left as it was. No draw is scored with value 0. -/
theorem simulateBall_decision (d : Nat) (player : Player) :
    ((simulateBall d player).1 = -1 ↔ d % 7 = 0) ∧
    ((simulateBall d player).1 = -1 → (simulateBall d player).2.out = true) ∧
    ((simulateBall d player).1 ≠ -1 →
      (simulateBall d player).1 = ((d % 7 : Nat) : Int) ∧
      1 ≤ (simulateBall d player).1 ∧ (simulateBall d player).1 ≤ 6 ∧
      (simulateBall d player).2.runs = player.runs + (simulateBall d player).1 ∧
      (simulateBall d player).2.balls = player.balls + 1 ∧
      (simulateBall d player).2.out = player.out) ∧
    (simulateBall d player).1 ≠ 0 := by
  by_cases h : d % 7 = 0
  · have h0 : ((d % 7 : Nat) : Int) = 0 := by omega
    have e : simulateBall d player = (-1, { player with out := true }) := by
      simp only [simulateBall]
      simp only [Nat.cast_ofNat] at h0 ⊢
      rw [if_pos h0]
    rw [e]
    simp [h]
  · have h0 : ¬ ((d % 7 : Nat) : Int) = 0 := by omega
    have e : simulateBall d player = (((d % 7 : Nat) : Int),
        { player with runs := player.runs + ((d % 7 : Nat) : Int)
                      balls := player.balls + 1 }) := by
      simp only [simulateBall]
      simp only [Nat.cast_ofNat] at h0 ⊢
      rw [if_neg h0]
    rw [e]
    refine ⟨⟨fun h1 => ?_, fun h1 => absurd h1 h⟩, fun h1 => ?_, fun _ => ?_, ?_⟩
    · simp only at h1; omega
    · simp only at h1; omega
    · simp only
      refine ⟨trivial, ?_, ?_, trivial, trivial, trivial⟩ <;> omega
    · simp only; omega

/-- C15: in both programs the result line is chosen by the two team totals
alone: team 1 is announced exactly when its total is greater, team 2 exactly
when its total is greater, a draw exactly when the totals are equal; teams with
the same totals (whatever their wickets, names or rosters) get the same
verdict; exchanging the teams exchanges the verdict; and `simulateMatch`
announces the verdict of the two teams as their innings left them. -/
theorem verdict_decided_by_totals (team1 team2 : Team) (m1 m2 : Match.Team) :
    ((matchVerdict team1 team2 = Verdict.team1Wins ↔ team1.totalRuns > team2.totalRuns) ∧
      (matchVerdict team1 team2 = Verdict.team2Wins ↔ team2.totalRuns > team1.totalRuns) ∧
      (matchVerdict team1 team2 = Verdict.drawn ↔ team1.totalRuns = team2.totalRuns) ∧
      (∀ t1 t2 : Team, t1.totalRuns = team1.totalRuns → t2.totalRuns = team2.totalRuns →
        matchVerdict t1 t2 = matchVerdict team1 team2) ∧
      matchVerdict team2 team1 = (matchVerdict team1 team2).exchange ∧
      (∀ (rand : Nat → Nat) (r : Team × Team × Verdict),
        simulateMatch rand team1 team2 = some r → r.2.2 = matchVerdict r.1 r.2.1)) ∧
    ((Match.announceWinner m1 m2 = Verdict.team1Wins ↔ m1.totalRuns > m2.totalRuns) ∧
      (Match.announceWinner m1 m2 = Verdict.team2Wins ↔ m2.totalRuns > m1.totalRuns) ∧
      (Match.announceWinner m1 m2 = Verdict.drawn ↔ m1.totalRuns = m2.totalRuns) ∧
      (∀ t1 t2 : Match.Team, t1.totalRuns = m1.totalRuns → t2.totalRuns = m2.totalRuns →
        Match.announceWinner t1 t2 = Match.announceWinner m1 m2) ∧
      Match.announceWinner m2 m1 = (Match.announceWinner m1 m2).exchange) := by
  refine ⟨⟨?_, ?_, ?_, ?_, ?_, ?_⟩, ⟨?_, ?_, ?_, ?_, ?_⟩⟩
  · simp only [matchVerdict]; split_ifs <;> simp <;> omega
  · simp only [matchVerdict]; split_ifs <;> simp <;> omega
  · simp only [matchVerdict]; split_ifs <;> simp <;> omega
  · intro t1 t2 h1 h2
    simp only [matchVerdict, h1, h2]
  · simp only [matchVerdict]; split_ifs <;> first | omega | simp [Verdict.exchange]
  · intro rand r h
    simp only [simulateMatch] at h
    split at h
    · cases h
    · split at h
      · cases h
      · simp only [Option.some.injEq] at h
        rw [← h]
  · simp only [Match.announceWinner]; split_ifs <;> simp <;> omega
  · simp only [Match.announceWinner]; split_ifs <;> simp <;> omega
  · simp only [Match.announceWinner]; split_ifs <;> simp <;> omega
  · intro t1 t2 h1 h2
    simp only [Match.announceWinner, h1, h2]
  · simp only [Match.announceWinner]; split_ifs <;> first | omega | simp [Verdict.exchange]

/-- C17: `simulateBall` does what its comment says ("0 = out, 1-6 runs") for
every draw `d` and every player: with `d % 7 = 0` it returns `-1` and only sets
`out`; otherwise it returns `d % 7`, a value in 1..6, adds it to `runs`, adds 1
to `balls` and leaves `out` alone. It never returns 0. -/
theorem simulateBall_as_commented (d : Nat) (player : Player) :
    (d % 7 = 0 → simulateBall d player = (-1, { player with out := true })) ∧
    (d % 7 ≠ 0 →
      simulateBall d player =
        (((d % 7 : Nat) : Int),
          { player with runs := player.runs + ((d % 7 : Nat) : Int)
                        balls := player.balls + 1 }) ∧
      1 ≤ d % 7 ∧ d % 7 ≤ 6) ∧
    (simulateBall d player).1 ≠ 0 := by
  refine ⟨fun h => ?_, fun h => ⟨?_, by omega, by omega⟩, ?_⟩
  · have h0 : ((d % 7 : Nat) : Int) = 0 := by omega
    simp only [simulateBall]
    simp only [Nat.cast_ofNat] at h0 ⊢
    rw [if_pos h0]
  · have h0 : ¬ ((d % 7 : Nat) : Int) = 0 := by omega
    simp only [simulateBall]
    simp only [Nat.cast_ofNat] at h0 ⊢
    rw [if_neg h0]
  · simp only [simulateBall]
    split
    · simp
    · rename_i h
      exact h

/-- C12: one iteration of the delivery loop of `playInnings`, entered with the
loop condition true and a bowling roster that is not empty, with
`r = (first draw) % 7` and `wicketChance = (second draw) % 100`. The iteration
is a dismissal exactly when `wicketChance < 15`: then `wicketsLost` grows by 1
and `totalRuns` and the batting roster are unchanged. Otherwise `r`, a value
in 0..6, is added to `totalRuns` and to the runs of `players[wicketsLost]`,
whose balls grow by 1; the other players and `wicketsLost` are unchanged. -/
theorem delivery_outcome (rand : Nat → Nat) (takeWicket : Match.Player → Match.Player)
    (s : Match.Innings) (hg : Match.wicketsInHand s.batting = true)
    (hb : s.bowling.players ≠ []) :
    ∃ s', Match.delivery rand takeWicket s = some s' ∧
      (s'.batting.wicketsLost = s.batting.wicketsLost + 1 ↔ rand (s.drawn + 1) % 100 < 15) ∧
      (rand (s.drawn + 1) % 100 < 15 →
        s'.batting.totalRuns = s.batting.totalRuns ∧
        s'.batting.players = s.batting.players) ∧
      (¬ rand (s.drawn + 1) % 100 < 15 →
        rand s.drawn % 7 ≤ 6 ∧
        s'.batting.wicketsLost = s.batting.wicketsLost ∧
        s'.batting.totalRuns = s.batting.totalRuns + ((rand s.drawn % 7 : Nat) : Int) ∧
        (∃ p, Match.playerAt s.batting.players s.batting.wicketsLost = some p ∧
          Match.playerAt s'.batting.players s.batting.wicketsLost =
            some { p with runs := p.runs + ((rand s.drawn % 7 : Nat) : Int)
                          balls := p.balls + 1 }) ∧
        (∀ i : Nat, (i : Int) ≠ s.batting.wicketsLost →
          s'.batting.players[i]? = s.batting.players[i]?)) := by
  have hg' := hg
  simp only [Match.wicketsInHand, Bool.and_eq_true, decide_eq_true_eq] at hg'
  by_cases hw : rand (s.drawn + 1) % 100 < 15
  · obtain ⟨bowler, _, hd⟩ := Match.delivery_wicket rand takeWicket s hw hg hb
    refine ⟨_, hd, ?_, ?_, ?_⟩
    · simp [Match.Team.loseWicket, hw]
    · intro _; exact ⟨rfl, rfl⟩
    · intro h; exact absurd hw h
  · obtain ⟨p, hp, hd⟩ := Match.delivery_run rand takeWicket s hw hg
    obtain ⟨q, hq, hq', hlt⟩ := Match.playerAt_of_inHand s.batting hg
    have hpq : q = p := by rw [hq'] at hp; exact Option.some.inj hp
    subst hpq
    refine ⟨_, hd, ?_, ?_, ?_⟩
    · simp only [hw, iff_false]; omega
    · intro h; exact absurd h hw
    · intro _
      refine ⟨by omega, rfl, rfl, ⟨q, hq, ?_⟩, ?_⟩
      · simp only [Match.playerAt]
        rw [if_neg (by omega), List.getElem?_set_self hlt]
        rfl
      · intro i hi
        exact List.getElem?_set_ne (by omega)

theorem delivery_outcome_witness :
    Match.wicketsInHand (Match.kickoff Match.warriors Match.knights).batting = true ∧
    (Match.kickoff Match.warriors Match.knights).bowling.players ≠ [] ∧
    ∃ s', Match.delivery (drawsOf [4, 50]) id (Match.kickoff Match.warriors Match.knights) =
        some s' ∧
      s'.batting.wicketsLost = 0 ∧ s'.batting.totalRuns = 4 := by
  refine ⟨by decide, by decide, ?_⟩
  obtain ⟨s', h, _, _, h3⟩ :=
    delivery_outcome (drawsOf [4, 50]) id (Match.kickoff Match.warriors Match.knights)
      (by decide) (by decide)
  obtain ⟨_, h4, h5, _⟩ := h3 (by decide)
  exact ⟨s', h, h4, h5⟩

/-- C13 (as stated, refuted): on the draws 50, 4, 50, 1, 5 in that order the
first delivery of `simulateOver` is a single with strike rotation (not a four)
and after three deliveries the total is 6 with no wicket. The first iteration
of the delivery loop of `playInnings` reads 50 as the run draw and 4 as the
wicket chance and is a dismissal, and `playInnings` itself yields no delivery
at all. -/
theorem spec_draw_order_gives_other_events :
    (bowl (drawsOf [50, 4, 50, 1, 5]) 1 (openers (createTeam "Red Warriors") 0)).map
        (fun c => (c.team.totalRuns, c.team.wickets, c.strikerIdx, c.nonStrikerIdx)) =
      some (1, 0, 1, 0) ∧
    (bowl (drawsOf [50, 4, 50, 1, 5]) 3 (openers (createTeam "Red Warriors") 0)).map
        (fun c => (c.team.totalRuns, c.team.wickets)) = some (6, 0) ∧
    (Match.ballLoop (drawsOf [50, 4, 50, 1, 5]) id 1
        (Match.kickoff Match.warriors Match.knights)).map
        (fun s => (s.batting.totalRuns, s.batting.wicketsLost)) = some (0, 1) ∧
    Match.playInnings (fun _ => drawsOf [50, 4, 50, 1, 5]) 0 id 5
        Match.warriors Match.knights = none := by
  decide

/-- C13 (amended): `simulateOver` reads one draw per delivery and a draw
divisible by 7 is the dismissal. On the draws 4, 1, 0 from a fresh innings the
first three deliveries are RUN 4 (strike unchanged), RUN 1 (strike rotated) and
WICKET (the next batter in order, index 2, comes on strike); the total is then
5 and one wicket has fallen. -/
theorem three_deliveries_reproducible :
    (bowl (drawsOf [4, 1, 0]) 1 (openers (createTeam "Red Warriors") 0)).map
        (fun c => (c.team.totalRuns, c.team.wickets, c.strikerIdx, c.nonStrikerIdx)) =
      some (4, 0, 0, 1) ∧
    (bowl (drawsOf [4, 1, 0]) 2 (openers (createTeam "Red Warriors") 0)).map
        (fun c => (c.team.totalRuns, c.team.wickets, c.strikerIdx, c.nonStrikerIdx)) =
      some (5, 0, 1, 0) ∧
    (bowl (drawsOf [4, 1, 0]) 3 (openers (createTeam "Red Warriors") 0)).map
        (fun c => (c.team.totalRuns, c.team.wickets, c.strikerIdx, c.nonStrikerIdx)) =
      some (5, 1, 2, 0) := by
  decide

/-- C14 (the code departs from the claim): with `overs = 0`, `playInnings`
yields no result: its first statement `srand(time(0x2A))` stores the time
through the address `0x2A`, which is undefined. The statements after it do
what the claim says: the loop makes no iteration, both teams are as given and
no `rand()` call is made. -/
theorem playInnings_faults_before_loop :
    Match.timeCall 0 0x2A = none ∧
    Match.playInnings (fun _ => countUp) 0 id 0 Match.warriors Match.knights = none ∧
    Match.inningsBody countUp id 0 Match.warriors Match.knights =
      some { batting := Match.warriors, bowling := Match.knights, i := 0, drawn := 0 } := by
  decide

/-- C16 (as stated, refuted): with eleven batters and every delivery a
dismissal, the delivery loop of `playInnings` still simulates a delivery at
`wicketsLost = 10`, and with `overs = 5` the statements after the first end
with `wicketsLost = 11` after eleven deliveries. -/
theorem delivery_simulated_at_ten_wickets :
    Match.warriors.players.length = 11 ∧
    (Match.ballLoop allOutDraws id 10 (Match.kickoff Match.warriors Match.knights)).map
        (fun s => (s.batting.wicketsLost, s.i)) = some (10, 10) ∧
    (Match.ballLoop allOutDraws id 11 (Match.kickoff Match.warriors Match.knights)).map
        (fun s => (s.batting.wicketsLost, s.i)) = some (11, 11) ∧
    (Match.inningsBody allOutDraws id 5 Match.warriors Match.knights).map
        (fun s => (s.batting.wicketsLost, s.i)) = some (11, 11) := by
  decide

/-- C16 (amended): for every draw stream, every batting roster of `N` players
starting at `wicketsLost = 0` and every bowling roster that is not empty, the
state after any number of iterations of the delivery loop exists, still has
`N` batters and has `0 ≤ wicketsLost ≤ N`; once `wicketsLost` has reached `N`
no further delivery is simulated. -/
theorem wicketsLost_at_most_roster_size (rand : Nat → Nat)
    (takeWicket : Match.Player → Match.Player) (batting bowling : Match.Team) (k : Nat)
    (h0 : batting.wicketsLost = 0) (hb : bowling.players ≠ []) :
    ∃ s, Match.ballLoop rand takeWicket k (Match.kickoff batting bowling) = some s ∧
      s.batting.players.length = batting.players.length ∧
      0 ≤ s.batting.wicketsLost ∧
      s.batting.wicketsLost ≤ (batting.players.length : Int) ∧
      (s.batting.wicketsLost = (batting.players.length : Int) →
        ∀ m, Match.ballLoop rand takeWicket m s = some s) := by
  obtain ⟨s, hs, ⟨h1, h2, h3, _⟩, _⟩ :=
    Match.ballLoop_inBounds rand takeWicket batting.players.length k
      (Match.kickoff batting bowling) (Match.kickoff_inBounds batting bowling h0 hb)
  refine ⟨s, hs, h1, h2, h3, ?_⟩
  intro hN m
  apply Match.ballLoop_stop
  simp only [Match.wicketsInHand, Bool.and_eq_true, decide_eq_true_eq, not_and, not_lt]
  intro _
  omega

theorem wicketsLost_at_most_roster_size_witness :
    Match.warriors.wicketsLost = 0 ∧ Match.knights.players ≠ [] ∧
    ∃ s, Match.ballLoop allOutDraws id 30 (Match.kickoff Match.warriors Match.knights) =
        some s ∧
      s.batting.wicketsLost ≤ 11 := by
  refine ⟨by decide, by decide, ?_⟩
  obtain ⟨s, hs, _, _, h3, _⟩ :=
    wicketsLost_at_most_roster_size allOutDraws id Match.warriors Match.knights 30
      (by decide) (by decide)
  exact ⟨s, hs, h3⟩

/-- C18: for every draw stream, in an innings of the eleven-player team of
`createTeam`, a dismissal that brings `team.wickets` to `k ≤ 9` makes
`strikerIdx` exactly `k + 1`; and at every point with `team.wickets = w ≤ 9`
(around each delivery and between overs) every player at an index greater
than `w + 1` has `runs = 0`, `balls = 0` and `out = false`. -/
theorem batters_enter_in_order (rand : Nat → Nat) (name : String) (drawn : Nat) :
    (∀ (k j : Nat) (c c' : Crease),
      afterBall rand (createTeam name) drawn k j = some c → ballBody rand c = some c' →
        rand c.drawn % 7 = 0 → c'.team.wickets ≤ 9 →
        c'.team.wickets = c.team.wickets + 1 ∧ (c'.strikerIdx : Int) = c'.team.wickets + 1) ∧
    (∀ (k j : Nat) (c : Crease),
      afterBall rand (createTeam name) drawn k j = some c → c.team.wickets ≤ 9 →
        ∀ (i : Nat) (p : Player), c.team.players[i]? = some p →
          c.team.wickets + 1 < (i : Int) → p.runs = 0 ∧ p.balls = 0 ∧ p.out = false) ∧
    (∀ (k : Nat) (c : Crease) (n : Nat),
      inningsUpTo rand k (openers (createTeam name) drawn) 1 = some (c, n) →
        c.team.wickets ≤ 9 →
        ∀ (i : Nat) (p : Player), c.team.players[i]? = some p →
          c.team.wickets + 1 < (i : Int) → p.runs = 0 ∧ p.balls = 0 ∧ p.out = false) := by
  refine ⟨?_, ?_, ?_⟩
  · intro k j c c' h hb hd hk
    have hc := afterBall_preserves InOrder (ballBody_inOrder rand) swapEnds_inOrder
      (createTeam name) drawn k j c (openers_inOrder name drawn) h
    exact wicket_brings_next rand c c' hc hb hd hk
  · intro k j c h hw i p hp hi
    have hc := afterBall_preserves (fun x => InOrder x ∧ Untouched x)
      (ballBody_inOrder_untouched rand) swapEnds_inOrder_untouched
      (createTeam name) drawn k j c (openers_inOrder_untouched name drawn) h
    exact inOrder_untouched_fresh c hc hw i p hp hi
  · intro k c n h hw i p hp hi
    have hc := inningsUpTo_preserves (fun x => InOrder x ∧ Untouched x)
      (ballBody_inOrder_untouched rand) swapEnds_inOrder_untouched k _ 1 (c, n)
      (openers_inOrder_untouched name drawn) h
    exact inOrder_untouched_fresh c hc hw i p hp hi

theorem batters_enter_in_order_witness :
    afterBall allOutDraws (createTeam "Red Warriors") 0 0 0 =
      some (openers (createTeam "Red Warriors") 0) ∧
    (∃ c', ballBody allOutDraws (openers (createTeam "Red Warriors") 0) = some c' ∧
      c'.team.wickets = 1 ∧ c'.strikerIdx = 2) ∧
    afterBall countUp (createTeam "Red Warriors") 0 0 3 = some sampleCrease ∧
    sampleCrease.team.players[3]? =
      some { name := "Player4", runs := 0, balls := 0, out := false } := by
  refine ⟨by decide, ?_, by decide, by decide⟩
  refine ⟨(ballBody allOutDraws (openers (createTeam "Red Warriors") 0)).getD sampleCrease,
    by decide, ?_⟩
  have := (batters_enter_in_order allOutDraws "Red Warriors" 0).1 0 0
    (openers (createTeam "Red Warriors") 0)
    ((ballBody allOutDraws (openers (createTeam "Red Warriors") 0)).getD sampleCrease)
    (by decide) (by decide) (by decide) (by decide)
  constructor
  · rw [this.1]; decide
  · have h2 := this.2
    rw [this.1] at h2
    have e : (openers (createTeam "Red Warriors") 0).team.wickets = 0 := rfl
    rw [e] at h2
    omega

/-- C19: every delivery adds exactly 1 to exactly one of the sum of the
players' balls and `team.wickets`; so whenever the innings loop of a team of
`createTeam` has completed `n - 1` overs (over number `n`), the sum of the
players' balls plus `team.wickets` is `6 * (n - 1)`. -/
theorem delivery_accounting (rand : Nat → Nat) :
    (∀ (c c' : Crease), ballBody rand c = some c' →
      (sumBalls c'.team.players = sumBalls c.team.players + 1 ∧
          c'.team.wickets = c.team.wickets) ∨
        (sumBalls c'.team.players = sumBalls c.team.players ∧
          c'.team.wickets = c.team.wickets + 1)) ∧
    (∀ (name : String) (drawn k : Nat) (c : Crease) (n : Nat),
      inningsUpTo rand k (openers (createTeam name) drawn) 1 = some (c, n) →
        1 ≤ n ∧ sumBalls c.team.players + c.team.wickets = 6 * ((n : Int) - 1)) := by
  refine ⟨fun c c' h => ballBody_ball_or_wicket rand c c' h, ?_⟩
  intro name drawn k c n h
  have hacc : Accounted drawn c :=
    inningsUpTo_preserves (Accounted drawn) (ballBody_accounted rand drawn)
      (fun x hx => hx) k _ 1 (c, n) (openers_accounted name drawn) h
  obtain ⟨h1, _, _, h4⟩ := inningsUpTo_overNumber rand k _ 1 c n h
  unfold Accounted at hacc
  simp only [openers] at h4
  refine ⟨h1, ?_⟩
  omega

theorem delivery_accounting_witness :
    inningsUpTo countUp 1 (openers (createTeam "Red Warriors") 0) 1 =
      some (afterFirstOver, 2) ∧
    sumBalls afterFirstOver.team.players + afterFirstOver.team.wickets = 6 * ((2 : Int) - 1) :=
  ⟨by decide,
    ((delivery_accounting countUp).2 "Red Warriors" 0 1 afterFirstOver 2 (by decide)).2⟩

end Cricket
